import Mathlib

/-!
# Shallow embedding of the in-memory shopping-cart backend (`modules/db.py`)

The Python module keeps five process-wide stores (`PRODUCTS`, `SKU_TO_PRODUCT`,
`PROMOS`, `CARTS`, `TRANSACTIONS_BY_USER`) plus two sequential counters, and
exposes catalog / promo / cart / checkout operations over them.  We embed that
state as a single `DB` record whose dictionaries are insertion-ordered
association lists (matching CPython dict semantics: updating an existing key
keeps its position, a fresh key is appended).  Python `float` prices and
monetary amounts are modelled as exact rationals `ℚ`; Python `int` is `ℤ`
(or `ℕ` for identifiers).  `HTTPException` is modelled by an `HTTPError`
value; every mutating operation returns its result together with the state at
the moment of return, so state mutated before a raised exception is kept,
exactly as the Python globals are.  The transaction timestamp (wall-clock
time) is omitted from the model; no property below depends on it.
-/

/-- Sizes, as in `SizeEnum` (`models.py`): values `"s"`, `"m"`, `"l"`. -/
inductive SizeEnum where
  | s | m | l
deriving DecidableEq, Repr

/-- Colors, as in `ColorEnum` (`models.py`). -/
inductive ColorEnum where
  | biru | coklat | hijau | pink
deriving DecidableEq, Repr

/-- `size.value.upper()` for the three sizes. -/
def SizeEnum.upperValue : SizeEnum → String
  | .s => "S"
  | .m => "M"
  | .l => "L"

/-- `color.value.upper()` for the four colors. -/
def ColorEnum.upperValue : ColorEnum → String
  | .biru => "BIRU"
  | .coklat => "COKLAT"
  | .hijau => "HIJAU"
  | .pink => "PINK"

/-- Fuel-driven decimal-digit accumulator (structurally recursive so that the
kernel can evaluate it on closed terms). -/
def natDigitsAux : Nat → Nat → List Char
  | 0, _ => []
  | fuel + 1, n =>
    if n < 10 then [Nat.digitChar n]
    else natDigitsAux fuel (n / 10) ++ [Nat.digitChar (n % 10)]

/-- Decimal digit list of a natural number, most significant first: the
character content of Python's `str(n)` (used by the f-string in `_make_sku`). -/
def natDigits (n : Nat) : List Char := natDigitsAux (n + 1) n

/-- Python `str(n)` for a natural number. -/
def natRepr (n : Nat) : String := String.mk (natDigits n)

/-- `_make_sku(product_id, size, color)`:
`f"P{product_id}-{size.value.upper()}-{color.value.upper()}"`. -/
def makeSku (productId : Nat) (size : SizeEnum) (color : ColorEnum) : String :=
  "P" ++ natRepr productId ++ "-" ++ size.upperValue ++ "-" ++ color.upperValue

/-- `Variant` model: a stored variant. -/
structure Variant where
  sku : String
  size : SizeEnum
  color : ColorEnum
  price : ℚ
  stock : ℤ
deriving DecidableEq, Repr

/-- `VariantCreate` payload (size, color, `price > 0`, `stock >= 0`). -/
structure VariantCreate where
  size : SizeEnum
  color : ColorEnum
  price : ℚ
  stock : ℤ
deriving DecidableEq, Repr

/-- The pydantic field constraints on `VariantCreate`
(`confloat(gt=0)`, `conint(ge=0)`). -/
def VariantCreate.valid (v : VariantCreate) : Prop := 0 < v.price ∧ 0 ≤ v.stock

instance (v : VariantCreate) : Decidable v.valid := by
  unfold VariantCreate.valid; infer_instance

/-- `Product` model. -/
structure Product where
  id : Nat
  name : String
  description : Option String
  variants : List Variant
deriving DecidableEq, Repr

/-- `ProductCreate` payload. -/
structure ProductCreate where
  name : String
  description : Option String
  variants : List VariantCreate
deriving DecidableEq, Repr

/-- Validity of a `ProductCreate` payload at the pydantic layer. -/
def ProductCreate.valid (d : ProductCreate) : Prop := ∀ v ∈ d.variants, v.valid

instance (d : ProductCreate) : Decidable d.valid := by
  unfold ProductCreate.valid; infer_instance

/-- `ProductUpdate` payload. -/
structure ProductUpdate where
  name : Option String
  description : Option String
  variants : Option (List VariantCreate)
deriving DecidableEq, Repr

/-- Validity of a `ProductUpdate` payload at the pydantic layer. -/
def ProductUpdate.valid (d : ProductUpdate) : Prop :=
  ∀ vs ∈ d.variants, ∀ v ∈ vs, v.valid

instance (d : ProductUpdate) : Decidable d.valid := by
  unfold ProductUpdate.valid; infer_instance

/-- `Promo` model. -/
structure Promo where
  code : String
  discountPercent : ℚ
  appliesToSkus : List String
deriving DecidableEq, Repr

/-- `PromoCreate` payload. -/
structure PromoCreate where
  code : String
  discountPercent : ℚ
  appliesToSkus : Option (List String)
deriving DecidableEq, Repr

/-- pydantic constraint `confloat(gt=0, le=100)` on the discount percent. -/
def PromoCreate.valid (d : PromoCreate) : Prop :=
  0 < d.discountPercent ∧ d.discountPercent ≤ 100

instance (d : PromoCreate) : Decidable d.valid := by
  unfold PromoCreate.valid; infer_instance

/-- `CartItemView` produced by `cart_view`. -/
structure CartItemView where
  sku : String
  name : String
  size : SizeEnum
  color : ColorEnum
  unitPrice : ℚ
  quantity : ℤ
  lineSubtotal : ℚ
deriving DecidableEq, Repr

/-- `PurchasedItem` snapshot recorded at checkout. -/
structure PurchasedItem where
  sku : String
  name : String
  size : SizeEnum
  color : ColorEnum
  unitPrice : ℚ
  quantity : ℤ
  subtotalBeforeDiscount : ℚ
  discountApplied : ℚ
  subtotalAfterDiscount : ℚ
deriving DecidableEq, Repr

/-- `Transaction` record (timestamp omitted, see module docstring). -/
structure Transaction where
  id : Nat
  userId : String
  items : List PurchasedItem
  subtotalBeforeDiscount : ℚ
  discountTotal : ℚ
  totalPaid : ℚ
  promoCode : Option String
deriving DecidableEq, Repr

/-- Python `str.upper()` (codes are compared case-insensitively after
uppercasing; ASCII case mapping, which covers the promo codes here). -/
def strUpper (s : String) : String := String.mk (s.data.map Char.toUpper)

/-- Errors raised via `HTTPException(status_code, detail)`; status `500`
stands for an uncaught Python `KeyError`/`IndexError`. -/
structure HTTPError where
  status : Nat
  detail : String
deriving DecidableEq, Repr

/-- 404 `HTTPException`. -/
def notFoundErr (detail : String) : HTTPError := ⟨404, detail⟩

/-- 400 `HTTPException` (validation / conflict). -/
def badRequestErr (detail : String) : HTTPError := ⟨400, detail⟩

instance {ε α : Type} [DecidableEq ε] [DecidableEq α] : DecidableEq (Except ε α)
  | .error e, .error f =>
    match decEq e f with
    | isTrue h => isTrue (h ▸ rfl)
    | isFalse h => isFalse (fun hc => h (by cases hc; rfl))
  | .error _, .ok _ => isFalse (fun hc => by cases hc)
  | .ok _, .error _ => isFalse (fun hc => by cases hc)
  | .ok x, .ok y =>
    match decEq x y with
    | isTrue h => isTrue (h ▸ rfl)
    | isFalse h => isFalse (fun hc => h (by cases hc; rfl))

/-! ## Association lists with CPython `dict` semantics -/

/-- `d.get(k)` / `d[k]`: first (unique) binding of `key`. -/
def alookup {κ ν : Type} [DecidableEq κ] : List (κ × ν) → κ → Option ν
  | [], _ => none
  | (k, v) :: rest, key => if k = key then some v else alookup rest key

/-- `d[k] = v`: replace in place when the key exists, else append. -/
def ainsert {κ ν : Type} [DecidableEq κ] : List (κ × ν) → κ → ν → List (κ × ν)
  | [], key, val => [(key, val)]
  | (k, v) :: rest, key, val =>
    if k = key then (key, val) :: rest else (k, v) :: ainsert rest key val

/-- `d.pop(k, None)`: drop every binding of `key` (unique in a dict). -/
def aerase {κ ν : Type} [DecidableEq κ] : List (κ × ν) → κ → List (κ × ν)
  | [], _ => []
  | (k, v) :: rest, key =>
    if k = key then aerase rest key else (k, v) :: aerase rest key

/-! ## The state -/

/-- The five global stores and the two counters of `db.py`. -/
structure DB where
  products : List (Nat × Product)
  skuToProduct : List (String × Nat × Nat)
  promos : List (String × Promo)
  carts : List (String × List (String × ℤ))
  transactionsByUser : List (String × List Transaction)
  nextProductId : Nat
  nextTxId : Nat
deriving DecidableEq, Repr

/-! ## Catalog Store operations -/

/-- The variant-building loop in `add_product` / `update_product`: each derived
SKU is checked against the index as it stood at loop entry (never against SKUs
derived earlier in the same request), and the first duplicate raises. -/
def buildNewVariants (pid : Nat) (index : List (String × Nat × Nat)) :
    List VariantCreate → Except HTTPError (List Variant)
  | [] => .ok []
  | v :: rest =>
    let sku := makeSku pid v.size v.color
    if (alookup index sku).isSome then
      .error (badRequestErr ("Duplicate SKU " ++ sku))
    else
      match buildNewVariants pid index rest with
      | .error e => .error e
      | .ok tl =>
        .ok ({ sku := sku, size := v.size, color := v.color,
               price := v.price, stock := v.stock } :: tl)

/-- `SKU_TO_PRODUCT[variant.sku] = (product_id, idx)` for each variant,
in `enumerate` order starting at `start`. -/
def registerSkus (pid : Nat) (start : Nat) (index : List (String × Nat × Nat)) :
    List Variant → List (String × Nat × Nat)
  | [] => index
  | v :: rest => registerSkus pid (start + 1) (ainsert index v.sku (pid, start)) rest

/-- `SKU_TO_PRODUCT.pop(variant.sku, None)` for each variant. -/
def eraseSkus (index : List (String × Nat × Nat)) (vs : List Variant) :
    List (String × Nat × Nat) :=
  vs.foldl (fun ix v => aerase ix v.sku) index

/-- The `Product(...)` constructor call in `add_product`. -/
def mkProduct (pid : Nat) (data : ProductCreate) (variants : List Variant) : Product :=
  { id := pid, name := data.name, description := data.description, variants := variants }

/-- `add_product(data)`.  The id counter is advanced before the duplicate
check, so a conflicting request burns an id. -/
def addProduct (data : ProductCreate) (db : DB) : Except HTTPError Product × DB :=
  match buildNewVariants db.nextProductId db.skuToProduct data.variants with
  | .error e => (.error e, { db with nextProductId := db.nextProductId + 1 })
  | .ok variants =>
    (.ok (mkProduct db.nextProductId data variants),
     { db with
        nextProductId := db.nextProductId + 1,
        products := ainsert db.products db.nextProductId
          (mkProduct db.nextProductId data variants),
        skuToProduct := registerSkus db.nextProductId 0 db.skuToProduct variants })

/-- The in-place `product.name` / `product.description` assignments of
`update_product`. -/
def applyNameDesc (data : ProductUpdate) (product : Product) : Product :=
  { product with
    name := data.name.getD product.name,
    description := match data.description with
      | some d => some d
      | none => product.description }

/-- The variant-replacement half of `update_product`, entered with the old
SKUs already dropped from the index (`db.skuToProduct` is the stripped
index here). -/
def updateProductVariants (pid : Nat) (vcs : List VariantCreate) (product : Product)
    (db : DB) : Except HTTPError Product × DB :=
  match buildNewVariants pid db.skuToProduct vcs with
  | .error e => (.error e, db)
  | .ok newVariants =>
    (.ok { product with variants := newVariants },
     { db with
        products := ainsert db.products pid { product with variants := newVariants },
        skuToProduct := registerSkus pid 0 db.skuToProduct newVariants })

/-- The branch of `update_product` after the name/description mutation has
been stored (Python mutates the stored object in place). -/
def updateProductRest (pid : Nat) (data : ProductUpdate) (product : Product)
    (db : DB) : Except HTTPError Product × DB :=
  match data.variants with
  | none => (.ok product, db)
  | some vcs =>
    updateProductVariants pid vcs product
      { db with skuToProduct := eraseSkus db.skuToProduct product.variants }

/-- `update_product(product_id, data)`.  Name/description changes land on the
stored object before the variant branch runs, and old SKUs are dropped from
the index before the new list is validated. -/
def updateProduct (pid : Nat) (data : ProductUpdate) (db : DB) :
    Except HTTPError Product × DB :=
  match alookup db.products pid with
  | none => (.error (notFoundErr "Product not found"), db)
  | some product =>
    updateProductRest pid data (applyNameDesc data product)
      { db with products := ainsert db.products pid (applyNameDesc data product) }

/-- `delete_product(product_id)`: pop the product, pop its SKUs, then keep in
every cart exactly the entries whose SKU still resolves in the index. -/
def deleteProduct (pid : Nat) (db : DB) : Except HTTPError Unit × DB :=
  match alookup db.products pid with
  | none => (.error (notFoundErr "Product not found"), db)
  | some product =>
    (.ok (),
     { db with
        products := aerase db.products pid,
        skuToProduct := eraseSkus db.skuToProduct product.variants,
        carts := db.carts.map (fun c => (c.1, c.2.filter (fun e =>
          (alookup (eraseSkus db.skuToProduct product.variants) e.1).isSome))) })

/-- `get_product(product_id)` (read-only). -/
def getProduct (pid : Nat) (db : DB) : Except HTTPError Product :=
  match alookup db.products pid with
  | none => .error (notFoundErr "Product not found")
  | some product => .ok product

/-- `list_products()` (read-only, insertion order). -/
def listProducts (db : DB) : List Product := db.products.map Prod.snd

/-- `find_variant(sku)` (read-only).  A dangling index entry would be an
uncaught `KeyError`/`IndexError` in Python, modelled as status 500. -/
def findVariant (sku : String) (db : DB) : Except HTTPError (Nat × Variant) :=
  match alookup db.skuToProduct sku with
  | none => .error (notFoundErr "SKU not found")
  | some (pid, idx) =>
    match alookup db.products pid with
    | none => .error ⟨500, "KeyError"⟩
    | some product =>
      match product.variants[idx]? with
      | none => .error ⟨500, "IndexError"⟩
      | some v => .ok (pid, v)

/-- The write-back loop in `adjust_stock`: replace the stock of the first
variant whose SKU matches, leave the rest untouched. -/
def replaceFirstStock (sku : String) (newStock : ℤ) : List Variant → List Variant
  | [] => []
  | v :: rest =>
    if v.sku = sku then { v with stock := newStock } :: rest
    else v :: replaceFirstStock sku newStock rest

/-- `adjust_stock(sku, delta)`. -/
def adjustStock (sku : String) (delta : ℤ) (db : DB) : Except HTTPError ℤ × DB :=
  match findVariant sku db with
  | .error e => (.error e, db)
  | .ok (pid, variant) =>
    let newStock := variant.stock + delta
    if newStock < 0 then (.error (badRequestErr "Insufficient stock"), db)
    else
      match alookup db.products pid with
      | none => (.error ⟨500, "KeyError"⟩, db)
      | some product =>
        let product :=
          { product with variants := replaceFirstStock sku newStock product.variants }
        (.ok newStock, { db with products := ainsert db.products pid product })

/-! ## Promo Store operations -/

/-- `create_promo(data)`. -/
def createPromo (data : PromoCreate) (db : DB) : Except HTTPError Promo × DB :=
  let code := strUpper data.code
  if (alookup db.promos code).isSome then
    (.error (badRequestErr "Promo code already exists"), db)
  else
    let applies := data.appliesToSkus.getD []
    let promo : Promo :=
      { code := code, discountPercent := data.discountPercent, appliesToSkus := applies }
    (.ok promo, { db with promos := ainsert db.promos code promo })

/-- `get_promo(code)` (read-only). -/
def getPromo (code : String) (db : DB) : Except HTTPError Promo :=
  match alookup db.promos (strUpper code) with
  | none => .error (notFoundErr "Promo code not found")
  | some promo => .ok promo

/-! ## Cart Store operations -/

/-- `get_cart(user_id)` / `CARTS[user_id]` (defaultdict read). -/
def getCart (user : String) (db : DB) : List (String × ℤ) :=
  (alookup db.carts user).getD []

/-- `set_cart_quantity(user_id, sku, quantity)`: validate the SKU, reject
`quantity > stock`, store the quantity, then pop it again when `<= 0`. -/
def setCartQuantity (user sku : String) (qty : ℤ) (db : DB) :
    Except HTTPError Unit × DB :=
  match findVariant sku db with
  | .error e => (.error e, db)
  | .ok (_, variant) =>
    if variant.stock < qty then
      (.error (badRequestErr "Quantity exceeds available stock"), db)
    else
      (.ok (),
       { db with carts :=
          (ainsert db.carts user
            (if qty ≤ 0 then aerase (ainsert (getCart user db) sku qty) sku
              else ainsert (getCart user db) sku qty)) })

/-- `remove_cart_item(user_id, sku)`. -/
def removeCartItem (user sku : String) (db : DB) : DB :=
  { db with carts := ainsert db.carts user (aerase (getCart user db) sku) }

/-- `clear_cart(user_id)`. -/
def clearCart (user : String) (db : DB) : DB :=
  { db with carts := ainsert db.carts user [] }

/-- The loop of `cart_view` (read-only): join each entry against the catalog,
or propagate the first `find_variant` failure. -/
def cartViewItems (db : DB) : List (String × ℤ) →
    Except HTTPError (List CartItemView × ℚ)
  | [] => .ok ([], 0)
  | (sku, qty) :: rest =>
    match findVariant sku db with
    | .error e => .error e
    | .ok (pid, variant) =>
      match alookup db.products pid with
      | none => .error ⟨500, "KeyError"⟩
      | some product =>
        let lineSubtotal := variant.price * (qty : ℚ)
        match cartViewItems db rest with
        | .error e => .error e
        | .ok (items, subtotal) =>
          .ok ({ sku := sku, name := product.name, size := variant.size,
                 color := variant.color, unitPrice := variant.price,
                 quantity := qty, lineSubtotal := lineSubtotal } :: items,
               lineSubtotal + subtotal)

/-- `cart_view(user_id)` (read-only). -/
def cartView (user : String) (db : DB) : Except HTTPError (List CartItemView × ℚ) :=
  cartViewItems db (getCart user db)

/-! ## Checkout Engine -/

/-- `if promo_code: promo = get_promo(promo_code)` — Python truthiness, so an
empty string counts as no promo code. -/
def resolvePromo (promoCode : Option String) (db : DB) :
    Except HTTPError (Option Promo) :=
  match promoCode with
  | none => .ok none
  | some code =>
    if code = "" then .ok none
    else
      match getPromo code db with
      | .error e => .error e
      | .ok promo => .ok (some promo)

/-- The pre-validation pass of `checkout`: re-resolve every cart entry and
report the first stale SKU or the first quantity above stock. -/
def validateCartStock (db : DB) : List (String × ℤ) → Option HTTPError
  | [] => none
  | (sku, qty) :: rest =>
    match findVariant sku db with
    | .error e => some e
    | .ok (_, variant) =>
      if variant.stock < qty then
        some (badRequestErr ("Insufficient stock for " ++ sku))
      else validateCartStock db rest

/-- Eligibility of a line for a promo: `appliesToSkus` empty, or membership. -/
def promoEligible (promo : Promo) (sku : String) : Bool :=
  promo.appliesToSkus.isEmpty || promo.appliesToSkus.contains sku

/-- The per-line discount of the pricing pass. -/
def lineDiscount (promo : Option Promo) (sku : String) (lineBefore : ℚ) : ℚ :=
  match promo with
  | none => 0
  | some p =>
    if promoEligible p sku then lineBefore * (p.discountPercent / 100) else 0

/-- The pricing pass of `checkout`: purchased-item snapshots plus the running
`subtotal_before` and `discount_total` sums. -/
def priceCart (db : DB) (promo : Option Promo) : List (String × ℤ) →
    Except HTTPError (List PurchasedItem × ℚ × ℚ)
  | [] => .ok ([], 0, 0)
  | (sku, qty) :: rest =>
    match findVariant sku db with
    | .error e => .error e
    | .ok (pid, variant) =>
      match alookup db.products pid with
      | none => .error ⟨500, "KeyError"⟩
      | some product =>
        let lineBefore := variant.price * (qty : ℚ)
        let disc := lineDiscount promo sku lineBefore
        let lineAfter := lineBefore - disc
        match priceCart db promo rest with
        | .error e => .error e
        | .ok (items, sb, dt) =>
          .ok ({ sku := sku, name := product.name, size := variant.size,
                 color := variant.color, unitPrice := variant.price,
                 quantity := qty, subtotalBeforeDiscount := lineBefore,
                 discountApplied := disc, subtotalAfterDiscount := lineAfter } :: items,
               lineBefore + sb, disc + dt)

/-- The commit pass of `checkout`: `adjust_stock(item.sku, -item.quantity)`
for each purchased item; a failure keeps the state mutated so far. -/
def commitStock : List PurchasedItem → DB → Option HTTPError × DB
  | [], db => (none, db)
  | item :: rest, db =>
    match adjustStock item.sku (-item.quantity) db with
    | (.error e, db) => (some e, db)
    | (.ok _, db) => commitStock rest db

/-- `checkout(user_id, promo_code)`. -/
def checkout (user : String) (promoCode : Option String) (db : DB) :
    Except HTTPError Transaction × DB :=
  if (getCart user db).isEmpty then (.error (badRequestErr "Cart is empty"), db)
  else
    match resolvePromo promoCode db with
    | .error e => (.error e, db)
    | .ok promo =>
      match validateCartStock db (getCart user db) with
      | some e => (.error e, db)
      | none =>
        match priceCart db promo (getCart user db) with
        | .error e => (.error e, db)
        | .ok (items, subtotalBefore, discountTotal) =>
          let totalPaid := subtotalBefore - discountTotal
          match commitStock items db with
          | (some e, db) => (.error e, db)
          | (none, db) =>
            let tx : Transaction :=
              { id := db.nextTxId, userId := user, items := items,
                subtotalBeforeDiscount := subtotalBefore,
                discountTotal := discountTotal, totalPaid := totalPaid,
                promoCode := promo.map Promo.code }
            let db :=
              { db with
                nextTxId := db.nextTxId + 1,
                transactionsByUser := ainsert db.transactionsByUser user
                  ((alookup db.transactionsByUser user).getD [] ++ [tx]) }
            (.ok tx, clearCart user db)

/-- `list_transactions(user_id)` (read-only). -/
def listTransactions (user : String) (db : DB) : List Transaction :=
  (alookup db.transactionsByUser user).getD []

/-! ## Seed data and initial state -/

/-- The twelve seed variants of `seed_initial_data` (sizes s/m/l at prices
100/120/140, colors biru/coklat/hijau/pink, stock 10 each). -/
def seedVariantCreates : List VariantCreate :=
  ([(SizeEnum.s, (100 : ℚ)), (SizeEnum.m, 120), (SizeEnum.l, 140)]).flatMap
    (fun sp =>
      [ColorEnum.biru, ColorEnum.coklat, ColorEnum.hijau, ColorEnum.pink].map
        (fun c => { size := sp.1, color := c, price := sp.2, stock := 10 }))

/-- The seed `ProductCreate` payload. -/
def seedProductCreate : ProductCreate :=
  { name := "Tas Anyam",
    description := some "Tas anyaman dengan berbagai ukuran dan warna",
    variants := seedVariantCreates }

/-- The module state before seeding. -/
def emptyDB : DB :=
  { products := [], skuToProduct := [], promos := [], carts := [],
    transactionsByUser := [], nextProductId := 1, nextTxId := 1 }

/-- The state after the import-time `seed_initial_data()` call. -/
def initDB : DB := (addProduct seedProductCreate emptyDB).2

/-! ## Reachability -/

/-- One mutating operation of the module, with payloads constrained exactly as
the pydantic request models constrain them. -/
inductive Step : DB → DB → Prop
  | add (db : DB) (data : ProductCreate) (h : data.valid) :
      Step db (addProduct data db).2
  | update (db : DB) (pid : Nat) (data : ProductUpdate) (h : data.valid) :
      Step db (updateProduct pid data db).2
  | del (db : DB) (pid : Nat) : Step db (deleteProduct pid db).2
  | adjust (db : DB) (sku : String) (delta : ℤ) :
      Step db (adjustStock sku delta db).2
  | promo (db : DB) (data : PromoCreate) (h : data.valid) :
      Step db (createPromo data db).2
  | setQty (db : DB) (user sku : String) (qty : ℤ) :
      Step db (setCartQuantity user sku qty db).2
  | removeItem (db : DB) (user sku : String) :
      Step db (removeCartItem user sku db)
  | clear (db : DB) (user : String) : Step db (clearCart user db)
  | buy (db : DB) (user : String) (promoCode : Option String) :
      Step db (checkout user promoCode db).2

/-- States reachable from the seeded initial state by any sequence of
operations (failed operations included: their partial mutations persist). -/
inductive Reachable : DB → Prop
  | init : Reachable initDB
  | step {db db' : DB} : Reachable db → Step db db' → Reachable db'

/-! ## Decimal representation: digit characters and injectivity -/

theorem digitChar_ne_dash : ∀ a : Nat, a < 10 → Nat.digitChar a ≠ '-' := by decide

theorem digitChar_inj_lt :
    ∀ a : Nat, a < 10 → ∀ b : Nat, b < 10 → Nat.digitChar a = Nat.digitChar b → a = b := by
  decide

theorem natDigitsAux_fuel :
    ∀ n : Nat, ∀ f₁ f₂ : Nat, n < f₁ → n < f₂ → natDigitsAux f₁ n = natDigitsAux f₂ n := by
  intro n
  induction n using Nat.strong_induction_on with
  | _ n ih =>
    intro f₁ f₂ h₁ h₂
    cases f₁ with
    | zero => omega
    | succ g₁ =>
      cases f₂ with
      | zero => omega
      | succ g₂ =>
        by_cases hn : n < 10
        · rw [natDigitsAux, natDigitsAux, if_pos hn, if_pos hn]
        · rw [natDigitsAux, natDigitsAux, if_neg hn, if_neg hn]
          have hdiv : n / 10 < n := Nat.div_lt_self (by omega) (by omega)
          rw [ih (n / 10) hdiv g₁ g₂ (by omega) (by omega)]

theorem natDigits_lt {n : Nat} (h : n < 10) : natDigits n = [Nat.digitChar n] := by
  rw [natDigits, natDigitsAux, if_pos h]

theorem natDigits_ge {n : Nat} (h : ¬n < 10) :
    natDigits n = natDigits (n / 10) ++ [Nat.digitChar (n % 10)] := by
  rw [natDigits, natDigits, natDigitsAux, if_neg h]
  have hdiv : n / 10 < n := Nat.div_lt_self (by omega) (by omega)
  rw [natDigitsAux_fuel (n / 10) n (n / 10 + 1) (by omega) (by omega)]

theorem natDigits_ne_nil (n : Nat) : natDigits n ≠ [] := by
  by_cases h : n < 10
  · rw [natDigits_lt h]
    simp
  · rw [natDigits_ge h]
    simp

theorem natDigits_no_dash (n : Nat) : ∀ c ∈ natDigits n, c ≠ '-' := by
  induction n using Nat.strong_induction_on with
  | _ n ih =>
    by_cases h : n < 10
    · rw [natDigits_lt h]
      rintro c hc rfl
      simp at hc
      exact digitChar_ne_dash n h (by rw [hc])
    · rw [natDigits_ge h]
      rintro c hc rfl
      rcases List.mem_append.1 hc with hm | hm
      · exact ih _ (Nat.div_lt_self (by omega) (by omega)) _ hm rfl
      · simp at hm
        exact digitChar_ne_dash _ (Nat.mod_lt _ (by omega)) (by rw [hm])

theorem natDigits_inj : ∀ n m : Nat, natDigits n = natDigits m → n = m := by
  intro n
  induction n using Nat.strong_induction_on with
  | _ n ih =>
    intro m h
    by_cases hn : n < 10 <;> by_cases hm : m < 10
    · rw [natDigits_lt hn, natDigits_lt hm] at h
      exact digitChar_inj_lt n hn m hm (by simpa using h)
    · rw [natDigits_lt hn, natDigits_ge hm] at h
      have hlen := congrArg List.length h
      simp at hlen
      have := natDigits_ne_nil (m / 10)
      cases hd : natDigits (m / 10) with
      | nil => exact absurd hd this
      | cons a l => rw [hd] at hlen; simp at hlen
    · rw [natDigits_ge hn, natDigits_lt hm] at h
      have hlen := congrArg List.length h
      simp at hlen
      have := natDigits_ne_nil (n / 10)
      cases hd : natDigits (n / 10) with
      | nil => exact absurd hd this
      | cons a l => rw [hd] at hlen; simp at hlen
    · rw [natDigits_ge hn, natDigits_ge hm] at h
      have h2 := List.append_inj h (by
        have h1 := congrArg List.length h
        simp at h1
        omega)
      obtain ⟨hdig, hlast⟩ := h2
      have hdiv : n / 10 = m / 10 :=
        ih (n / 10) (Nat.div_lt_self (by omega) (by omega)) _ hdig
      have hmod : n % 10 = m % 10 := by
        have := digitChar_inj_lt (n % 10) (Nat.mod_lt _ (by omega))
          (m % 10) (Nat.mod_lt _ (by omega)) (by simpa using hlast)
        exact this
      omega

/-- Splitting a character list at the first `'-'` is unambiguous when the
prefixes contain none. -/
theorem split_at_dash :
    ∀ (d₁ : List Char) (t₁ : List Char) (d₂ : List Char) (t₂ : List Char),
      (∀ c ∈ d₁, c ≠ '-') → (∀ c ∈ d₂, c ≠ '-') →
      d₁ ++ '-' :: t₁ = d₂ ++ '-' :: t₂ → d₁ = d₂ ∧ t₁ = t₂ := by
  intro d₁
  induction d₁ with
  | nil =>
    intro t₁ d₂ t₂ _ h₂ h
    cases d₂ with
    | nil => simpa using h
    | cons b l =>
      simp at h
      exact absurd h.1.symm (h₂ b (by simp))
  | cons a l ih =>
    intro t₁ d₂ t₂ h₁ h₂ h
    cases d₂ with
    | nil =>
      simp at h
      exact absurd h.1 (h₁ a (by simp))
    | cons b m =>
      simp at h
      obtain ⟨rfl, h⟩ := h
      obtain ⟨hl, ht⟩ := ih t₁ m t₂ (fun c hc => h₁ c (by simp [hc]))
        (fun c hc => h₂ c (by simp [hc])) h
      exact ⟨by rw [hl], ht⟩

theorem makeSku_data (p : Nat) (s : SizeEnum) (c : ColorEnum) :
    (makeSku p s c).data =
      'P' :: (natDigits p ++ '-' :: (s.upperValue.data ++ '-' :: c.upperValue.data)) := by
  simp [makeSku, natRepr]

/-- Two derived SKUs agree only if all three components agree; in particular
variants of distinct products can never share a SKU. -/
theorem makeSku_inj {p₁ p₂ : Nat} {s₁ s₂ : SizeEnum} {c₁ c₂ : ColorEnum}
    (h : makeSku p₁ s₁ c₁ = makeSku p₂ s₂ c₂) : p₁ = p₂ ∧ s₁ = s₂ ∧ c₁ = c₂ := by
  have hd := congrArg String.data h
  rw [makeSku_data, makeSku_data] at hd
  simp only [List.cons.injEq, true_and] at hd
  obtain ⟨hdig, hrest⟩ := split_at_dash _ _ _ _
    (natDigits_no_dash p₁) (natDigits_no_dash p₂) hd
  refine ⟨natDigits_inj _ _ hdig, ?_⟩
  have hs : ∀ a : SizeEnum, ∀ b : SizeEnum,
      a.upperValue.data ++ '-' :: c₁.upperValue.data =
        b.upperValue.data ++ '-' :: c₂.upperValue.data → a = b := by
    intro a b hab
    cases a <;> cases b <;> first | rfl | (simp [SizeEnum.upperValue] at hab)
  have hseq := hs s₁ s₂ hrest
  subst hseq
  refine ⟨rfl, ?_⟩
  have := List.append_inj_right hrest rfl
  simp only [List.cons.injEq, true_and] at this
  cases c₁ <;> cases c₂ <;> first | rfl | (simp [ColorEnum.upperValue] at this)

/-! ## Association-list lemmas -/

/-- The key list of a dictionary. -/
def akeys {κ ν : Type} (l : List (κ × ν)) : List κ := l.map Prod.fst

theorem alookup_ainsert_self {κ ν : Type} [DecidableEq κ]
    (l : List (κ × ν)) (k : κ) (v : ν) : alookup (ainsert l k v) k = some v := by
  induction l with
  | nil => simp [ainsert, alookup]
  | cons e rest ih =>
    by_cases h : e.1 = k
    · simp [ainsert, alookup, h]
    · simp [ainsert, alookup, h, ih]

theorem alookup_ainsert_ne {κ ν : Type} [DecidableEq κ]
    (l : List (κ × ν)) (k k' : κ) (v : ν) (h : k' ≠ k) :
    alookup (ainsert l k v) k' = alookup l k' := by
  induction l with
  | nil => simp [ainsert, alookup, Ne.symm h]
  | cons e rest ih =>
    by_cases he : e.1 = k
    · simp [ainsert, alookup, he, Ne.symm h]
    · by_cases he' : e.1 = k' <;> simp [ainsert, alookup, he, he', ih, h]

theorem alookup_aerase_self {κ ν : Type} [DecidableEq κ]
    (l : List (κ × ν)) (k : κ) : alookup (aerase l k) k = none := by
  induction l with
  | nil => simp [aerase, alookup]
  | cons e rest ih =>
    by_cases h : e.1 = k
    · simp [aerase, h, ih]
    · simp [aerase, alookup, h, ih]

theorem alookup_aerase_ne {κ ν : Type} [DecidableEq κ]
    (l : List (κ × ν)) (k k' : κ) (h : k' ≠ k) :
    alookup (aerase l k) k' = alookup l k' := by
  induction l with
  | nil => simp [aerase]
  | cons e rest ih =>
    by_cases he : e.1 = k
    · rw [aerase]
      simp only [he, if_pos]
      rw [ih, alookup]
      have : e.1 ≠ k' := by rw [he]; exact Ne.symm h
      simp [this]
    · rw [aerase]
      simp only [he, if_neg, ite_false]
      by_cases he' : e.1 = k' <;> simp [alookup, he', ih]

theorem mem_aerase {κ ν : Type} [DecidableEq κ]
    {l : List (κ × ν)} {k : κ} {e : κ × ν} (h : e ∈ aerase l k) : e ∈ l := by
  induction l with
  | nil => simpa [aerase] using h
  | cons f rest ih =>
    rw [aerase] at h
    by_cases hf : f.1 = k
    · simp only [hf, if_pos] at h
      exact List.mem_cons_of_mem _ (ih h)
    · simp only [hf, if_neg, ite_false, List.mem_cons] at h
      rcases h with rfl | h
      · exact List.mem_cons_self _ _
      · exact List.mem_cons_of_mem _ (ih h)

theorem mem_ainsert {κ ν : Type} [DecidableEq κ]
    {l : List (κ × ν)} {k : κ} {v : ν} {e : κ × ν} (h : e ∈ ainsert l k v) :
    e = (k, v) ∨ e ∈ l := by
  induction l with
  | nil => simpa [ainsert] using h
  | cons f rest ih =>
    rw [ainsert] at h
    by_cases hf : f.1 = k
    · simp only [hf, if_pos, List.mem_cons] at h
      rcases h with rfl | h
      · exact Or.inl rfl
      · exact Or.inr (List.mem_cons_of_mem _ h)
    · simp only [hf, if_neg, ite_false, List.mem_cons] at h
      rcases h with rfl | h
      · exact Or.inr (List.mem_cons_self _ _)
      · rcases ih h with h | h
        · exact Or.inl h
        · exact Or.inr (List.mem_cons_of_mem _ h)

theorem alookup_eq_none_iff {κ ν : Type} [DecidableEq κ]
    (l : List (κ × ν)) (k : κ) : alookup l k = none ↔ k ∉ akeys l := by
  induction l with
  | nil => simp [alookup, akeys]
  | cons e rest ih =>
    by_cases h : e.1 = k
    · simp [alookup, akeys, h]
    · simp [alookup, akeys, h, ih, Ne.symm h]

theorem alookup_isSome_iff {κ ν : Type} [DecidableEq κ]
    (l : List (κ × ν)) (k : κ) : (alookup l k).isSome ↔ k ∈ akeys l := by
  induction l with
  | nil => simp [alookup, akeys]
  | cons e rest ih =>
    by_cases h : e.1 = k
    · simp [alookup, akeys, h]
    · simp [alookup, akeys, h, ih, Ne.symm h]

theorem mem_of_alookup_eq_some {κ ν : Type} [DecidableEq κ]
    {l : List (κ × ν)} {k : κ} {v : ν} (h : alookup l k = some v) : (k, v) ∈ l := by
  induction l with
  | nil => simp [alookup] at h
  | cons e rest ih =>
    obtain ⟨k0, v0⟩ := e
    rw [alookup] at h
    by_cases he : k0 = k
    · simp only [he, if_pos, Option.some.injEq] at h
      subst he
      subst h
      exact List.mem_cons_self _ _
    · simp only [he, if_neg, ite_false] at h
      exact List.mem_cons_of_mem _ (ih h)

theorem alookup_mem_akeys {κ ν : Type} [DecidableEq κ]
    {l : List (κ × ν)} {k : κ} {v : ν} (h : alookup l k = some v) : k ∈ akeys l := by
  rw [← alookup_isSome_iff, h]
  rfl

theorem akeys_ainsert_of_mem {κ ν : Type} [DecidableEq κ]
    {l : List (κ × ν)} {k : κ} (v : ν) (h : k ∈ akeys l) :
    akeys (ainsert l k v) = akeys l := by
  induction l with
  | nil => simp [akeys] at h
  | cons e rest ih =>
    by_cases he : e.1 = k
    · simp [ainsert, akeys, he]
    · rw [akeys, List.map_cons] at h
      simp only [List.mem_cons] at h
      rcases h with h | h
      · exact absurd h.symm he
      · have hrec := ih h
        rw [ainsert]
        simp only [he, ite_false, if_neg]
        calc akeys (e :: ainsert rest k v)
            = e.1 :: akeys (ainsert rest k v) := rfl
          _ = e.1 :: akeys rest := by rw [hrec]
          _ = akeys (e :: rest) := rfl

theorem ainsert_of_not_mem {κ ν : Type} [DecidableEq κ]
    {l : List (κ × ν)} {k : κ} (v : ν) (h : k ∉ akeys l) :
    ainsert l k v = l ++ [(k, v)] := by
  induction l with
  | nil => simp [ainsert]
  | cons e rest ih =>
    rw [akeys, List.map_cons] at h
    simp only [List.mem_cons, not_or] at h
    rw [ainsert]
    simp only [Ne.symm h.1, if_neg, ite_false, List.cons_append, List.cons.injEq, true_and]
    exact ih h.2

theorem alookup_eq_some_of_mem {κ ν : Type} [DecidableEq κ]
    {l : List (κ × ν)} (hnd : (akeys l).Nodup) {e : κ × ν} (h : e ∈ l) :
    alookup l e.1 = some e.2 := by
  induction l with
  | nil => simp at h
  | cons f rest ih =>
    rw [akeys, List.map_cons, List.nodup_cons] at hnd
    rcases List.mem_cons.1 h with rfl | h
    · simp [alookup]
    · have hne : f.1 ≠ e.1 := by
        intro hc
        exact hnd.1 (hc ▸ (List.mem_map.2 ⟨e, h, rfl⟩))
      rw [alookup]
      simp only [hne, if_neg, ite_false]
      exact ih hnd.2 h

/-! ## Well-formedness of a state -/

/-- An index entry points at an existing product and the variant stored at the
referenced position carries exactly this SKU. -/
def indexEntryValidB (db : DB) (e : String × Nat × Nat) : Bool :=
  match alookup db.products e.2.1 with
  | none => false
  | some prod =>
    match prod.variants[e.2.2]? with
    | none => false
    | some v => v.sku == e.1

/-- Every index entry is valid. -/
def indexOk (db : DB) : Prop :=
  ∀ e ∈ db.skuToProduct, indexEntryValidB db e = true

/-- Dictionary shape and catalog/index consistency used as the hypothesis of
the operation-level theorems: product keys are unique and match the stored
ids, index keys are unique and valid, SKUs are unique inside each product,
and cart keys are unique per user. -/
def DB.Wf (db : DB) : Prop :=
  (akeys db.products).Nodup ∧
  (∀ p ∈ db.products, p.2.id = p.1) ∧
  (akeys db.skuToProduct).Nodup ∧
  indexOk db ∧
  (∀ p ∈ db.products, (p.2.variants.map Variant.sku).Nodup) ∧
  (akeys db.carts).Nodup ∧
  (∀ c ∈ db.carts, (akeys c.2).Nodup)

instance (db : DB) : Decidable db.Wf := by
  unfold DB.Wf indexOk
  infer_instance

/-- The stock a SKU currently resolves to, when it resolves. -/
def stockOf (db : DB) (sku : String) : Option ℤ :=
  match findVariant sku db with
  | .ok (_, v) => some v.stock
  | .error _ => none

/-! ## `eraseSkus` and `registerSkus` lemmas -/

theorem eraseSkus_alookup (vs : List Variant) :
    ∀ (ix : List (String × Nat × Nat)) (k : String),
      alookup (eraseSkus ix vs) k =
        if k ∈ vs.map Variant.sku then none else alookup ix k := by
  induction vs with
  | nil => intro ix k; simp [eraseSkus]
  | cons v rest ih =>
    intro ix k
    have hstep : eraseSkus ix (v :: rest) = eraseSkus (aerase ix v.sku) rest := rfl
    rw [hstep, ih]
    by_cases hk : k ∈ rest.map Variant.sku
    · simp [hk]
    · by_cases hv : k = v.sku
      · simp [hk, hv, alookup_aerase_self]
      · simp [hk, hv, alookup_aerase_ne _ _ _ hv]

theorem mem_eraseSkus (vs : List Variant) :
    ∀ (ix : List (String × Nat × Nat)) (e : String × Nat × Nat),
      e ∈ eraseSkus ix vs → e ∈ ix := by
  induction vs with
  | nil => intro ix e h; exact h
  | cons v rest ih =>
    intro ix e h
    exact mem_aerase (ih _ _ h)

theorem registerSkus_lookup (pid : Nat) (vs : List Variant) :
    ∀ (start : Nat) (ix : List (String × Nat × Nat)) (k : String),
      (alookup (registerSkus pid start ix vs) k = alookup ix k ∧
        k ∉ vs.map Variant.sku) ∨
      (∃ j, ∃ hj : j < vs.length, (vs.get ⟨j, hj⟩).sku = k ∧
        alookup (registerSkus pid start ix vs) k = some (pid, start + j)) := by
  induction vs with
  | nil => intro start ix k; simp [registerSkus]
  | cons v rest ih =>
    intro start ix k
    have hstep : registerSkus pid start ix (v :: rest) =
        registerSkus pid (start + 1) (ainsert ix v.sku (pid, start)) rest := rfl
    rw [hstep]
    rcases ih (start + 1) (ainsert ix v.sku (pid, start)) k with ⟨hl, hnm⟩ | ⟨j, hj, hsku, hl⟩
    · by_cases hv : k = v.sku
      · right
        refine ⟨0, by simp, by simp [hv], ?_⟩
        rw [hl, hv, alookup_ainsert_self]
        simp
      · left
        refine ⟨by rw [hl, alookup_ainsert_ne _ _ _ _ hv], ?_⟩
        simp only [List.map_cons, List.mem_cons, not_or]
        exact ⟨hv, hnm⟩
    · right
      refine ⟨j + 1, by simpa using Nat.succ_lt_succ hj, by simpa using hsku, ?_⟩
      rw [hl]
      have harith : start + 1 + j = start + (j + 1) := by omega
      rw [harith]

/-! ## `findVariant` lemmas -/

theorem findVariant_none {db : DB} {sku : String}
    (h : alookup db.skuToProduct sku = none) :
    findVariant sku db = .error (notFoundErr "SKU not found") := by
  unfold findVariant
  rw [h]

theorem findVariant_ok_elim {db : DB} {sku : String} {pid : Nat} {v : Variant}
    (h : findVariant sku db = .ok (pid, v)) :
    ∃ idx prod, alookup db.skuToProduct sku = some (pid, idx) ∧
      alookup db.products pid = some prod ∧ prod.variants[idx]? = some v := by
  unfold findVariant at h
  rcases hix : alookup db.skuToProduct sku with _ | ⟨p, idx⟩
  · rw [hix] at h
    exact absurd h (by simp)
  · rw [hix] at h
    dsimp only at h
    rcases hpr : alookup db.products p with _ | prod
    · rw [hpr] at h
      exact absurd h (by simp)
    · rw [hpr] at h
      dsimp only at h
      rcases hv : prod.variants[idx]? with _ | w
      · rw [hv] at h
        exact absurd h (by simp)
      · rw [hv] at h
        dsimp only at h
        simp only [Except.ok.injEq, Prod.mk.injEq] at h
        obtain ⟨h1, h2⟩ := h
        subst h1
        subst h2
        exact ⟨idx, prod, hix ▸ rfl, hpr, hv⟩

theorem findVariant_of_index (db : DB) {sku : String} {pid idx : Nat} {prod : Product}
    {v : Variant} (hix : alookup db.skuToProduct sku = some (pid, idx))
    (hpr : alookup db.products pid = some prod)
    (hv : prod.variants[idx]? = some v) :
    findVariant sku db = .ok (pid, v) := by
  unfold findVariant
  rw [hix]
  dsimp only
  rw [hpr]
  dsimp only
  rw [hv]

/-- Under a valid index, a resolved variant carries the SKU it was looked up by. -/
theorem findVariant_sku_eq {db : DB} {sku : String} {pid : Nat} {v : Variant}
    (hok : indexOk db) (h : findVariant sku db = .ok (pid, v)) : v.sku = sku := by
  obtain ⟨idx, prod, hix, hpr, hv⟩ := findVariant_ok_elim h
  have := hok _ (mem_of_alookup_eq_some hix)
  unfold indexEntryValidB at this
  rw [hpr] at this
  simp only at this
  rw [hv] at this
  simpa using this

theorem indexEntryValidB_iff (db : DB) (sku : String) (pid idx : Nat) :
    indexEntryValidB db (sku, pid, idx) = true ↔
      ∃ prod v, alookup db.products pid = some prod ∧
        prod.variants[idx]? = some v ∧ v.sku = sku := by
  unfold indexEntryValidB
  constructor
  · intro ht
    split at ht
    · exact absurd ht (by simp)
    next prod h =>
      split at ht
      · exact absurd ht (by simp)
      next v hv => exact ⟨prod, v, h, hv, by simpa using ht⟩
  · rintro ⟨prod, v, h, hv, hs⟩
    simp [h, hv, hs]

/-! ## `replaceFirstStock` lemmas -/

theorem replaceFirstStock_map_sku (s : String) (st : ℤ) :
    ∀ l : List Variant, (replaceFirstStock s st l).map Variant.sku = l.map Variant.sku := by
  intro l
  induction l with
  | nil => rfl
  | cons w tl ih =>
    rw [replaceFirstStock]
    by_cases hw : w.sku = s
    · simp [hw]
    · simp [hw, ih]

theorem replaceFirstStock_spec (s : String) (st : ℤ) :
    ∀ (l : List Variant) (i : Nat) (v : Variant), (l.map Variant.sku).Nodup →
      l[i]? = some v → v.sku = s →
      (replaceFirstStock s st l)[i]? = some { v with stock := st } ∧
      ∀ j, j ≠ i → (replaceFirstStock s st l)[j]? = l[j]? := by
  intro l
  induction l with
  | nil => intro i v _ h; simp at h
  | cons w tl ih =>
    intro i v hnd hget hsku
    rw [List.map_cons, List.nodup_cons] at hnd
    cases i with
    | zero =>
      simp only [List.getElem?_cons_zero, Option.some.injEq] at hget
      subst hget
      rw [replaceFirstStock]
      simp only [hsku, if_pos]
      refine ⟨by simp, ?_⟩
      intro j hj
      cases j with
      | zero => exact absurd rfl hj
      | succ j' => simp
    | succ i' =>
      simp only [List.getElem?_cons_succ] at hget
      have hvmem : v ∈ tl := List.getElem?_mem hget
      have hsmem : s ∈ tl.map Variant.sku := List.mem_map.2 ⟨v, hvmem, hsku⟩
      have hwne : w.sku ≠ s := fun hc => hnd.1 (hc ▸ hsmem)
      rw [replaceFirstStock]
      simp only [hwne, if_neg, ite_false]
      obtain ⟨h1, h2⟩ := ih i' v hnd.2 hget hsku
      refine ⟨by simpa using h1, ?_⟩
      intro j hj
      cases j with
      | zero => simp
      | succ j' =>
        simp only [List.getElem?_cons_succ]
        exact h2 j' (fun hc => hj (by rw [hc]))

/-! ## `adjustStock` lemmas -/

theorem adjustStock_error_state {db : DB} {sku : String} {delta : ℤ}
    {e : HTTPError} (h : (adjustStock sku delta db).1 = .error e) :
    (adjustStock sku delta db).2 = db := by
  unfold adjustStock at *
  rcases hfv : findVariant sku db with e' | ⟨pid, v⟩
  · rfl
  · rw [hfv] at h
    dsimp only at h ⊢
    by_cases hneg : v.stock + delta < 0
    · rw [if_pos hneg]
    · rw [if_neg hneg] at h ⊢
      rcases hpr : alookup db.products pid with _ | prod
      · rfl
      · rw [hpr] at h
        dsimp only at h
        exact absurd h (by simp)

/-- Effect of a successful `adjust_stock` on a well-formed state. -/
theorem adjustStock_ok {db : DB} {sku : String} {delta : ℤ} {pid : Nat} {v : Variant}
    (hwf : db.Wf) (hfv : findVariant sku db = .ok (pid, v))
    (hge : 0 ≤ v.stock + delta) :
    ∃ db', adjustStock sku delta db = (.ok (v.stock + delta), db') ∧
      db'.skuToProduct = db.skuToProduct ∧
      db'.promos = db.promos ∧
      db'.carts = db.carts ∧
      db'.transactionsByUser = db.transactionsByUser ∧
      db'.nextProductId = db.nextProductId ∧
      db'.nextTxId = db.nextTxId ∧
      findVariant sku db' = .ok (pid, { v with stock := v.stock + delta }) ∧
      (∀ sku', sku' ≠ sku → findVariant sku' db' = findVariant sku' db) ∧
      db'.Wf := by
  obtain ⟨hpk, hid, hik, hiok, hsnd, hck, hcknd⟩ := hwf
  obtain ⟨idx, prod, hix, hpr, hv⟩ := findVariant_ok_elim hfv
  have hvsku : v.sku = sku := findVariant_sku_eq hiok hfv
  have hnodup : (prod.variants.map Variant.sku).Nodup := hsnd _ (mem_of_alookup_eq_some hpr)
  obtain ⟨hrep1, hrep2⟩ := replaceFirstStock_spec sku (v.stock + delta) prod.variants idx v
    hnodup hv hvsku
  set prod' : Product :=
    { prod with variants := replaceFirstStock sku (v.stock + delta) prod.variants } with hprod'
  set db' : DB := { db with products := ainsert db.products pid prod' } with hdb'
  have hstep : adjustStock sku delta db = (.ok (v.stock + delta), db') := by
    unfold adjustStock
    rw [hfv]
    simp only [not_lt.2 hge, if_neg, ite_false]
    rw [hpr]
  have hlk : alookup db'.products pid = some prod' := by
    rw [hdb']
    exact alookup_ainsert_self _ _ _
  have hlkne : ∀ q, q ≠ pid → alookup db'.products q = alookup db.products q := by
    intro q hq
    rw [hdb']
    exact alookup_ainsert_ne _ _ _ _ hq
  refine ⟨db', hstep, rfl, rfl, rfl, rfl, rfl, rfl, ?_, ?_, ?_⟩
  · exact findVariant_of_index db' hix hlk hrep1
  · intro sku' hne
    have hixsame : alookup db'.skuToProduct sku' = alookup db.skuToProduct sku' := rfl
    rcases hix' : alookup db.skuToProduct sku' with _ | ⟨q, j⟩
    · rw [findVariant_none (by rw [hixsame, hix']), findVariant_none hix']
    · have hvalid := (indexEntryValidB_iff db sku' q j).1
        (hiok _ (mem_of_alookup_eq_some hix'))
      obtain ⟨prodq, w, hprq, hwj, hwsku⟩ := hvalid
      by_cases hq : q = pid
      · subst hq
        have hpe : prodq = prod := by
          rw [hpr] at hprq
          exact (Option.some.injEq _ _ ▸ hprq).symm
        subst hpe
        have hji : j ≠ idx := by
          intro hc
          subst hc
          rw [hwj] at hv
          cases hv
          exact hne (by rw [← hwsku, hvsku])
        have hl : prodq.variants[j]? = some w := hwj
        have hl' : prod'.variants[j]? = some w := by
          rw [hprod']
          simpa using (hrep2 j hji) ▸ hwj
        rw [findVariant_of_index db' (by rw [hixsame, hix']) hlk hl',
          findVariant_of_index db hix' hpr hwj]
      · rw [findVariant_of_index db' (by rw [hixsame, hix'])
            (by rw [hlkne q hq, hprq]) hwj,
          findVariant_of_index db hix' hprq hwj]
  · refine ⟨?_, ?_, hik, ?_, ?_, hck, hcknd⟩
    · rw [hdb']
      simpa [akeys_ainsert_of_mem _ (alookup_mem_akeys hpr)] using hpk
    · intro p hp
      rcases mem_ainsert hp with rfl | hp
      · simpa [hprod'] using hid _ (mem_of_alookup_eq_some hpr)
      · exact hid _ hp
    · intro e he
      obtain ⟨esku, epid, eidx⟩ := e
      have hvalid := (indexEntryValidB_iff db esku epid eidx).1 (hiok _ he)
      obtain ⟨prodq, w, hprq, hwj, hwsku⟩ := hvalid
      rw [indexEntryValidB_iff]
      by_cases hq : epid = pid
      · have hpe : prodq = prod := by
          rw [hq, hpr] at hprq
          exact (Option.some.injEq _ _ ▸ hprq).symm
        subst hpe
        by_cases hji : eidx = idx
        · refine ⟨prod', { v with stock := v.stock + delta }, by rw [hq]; exact hlk, ?_, ?_⟩
          · rw [hprod']
            simpa using hji ▸ hrep1
          · rw [hji, hv] at hwj
            cases hwj
            simpa using hwsku
        · refine ⟨prod', w, by rw [hq]; exact hlk, ?_, hwsku⟩
          rw [hprod']
          simpa using (hrep2 _ hji) ▸ hwj
      · exact ⟨prodq, w, by rw [hlkne _ hq]; exact hprq, hwj, hwsku⟩
    · intro p hp
      rcases mem_ainsert hp with rfl | hp
      · simpa [hprod', replaceFirstStock_map_sku] using
          hsnd _ (mem_of_alookup_eq_some hpr)
      · exact hsnd _ hp

/-! ## Checkout-pass lemmas -/

theorem validateCartStock_none {db : DB} :
    ∀ cart : List (String × ℤ),
      (∀ e ∈ cart, ∃ pid v, findVariant e.1 db = .ok (pid, v) ∧ e.2 ≤ v.stock) →
      validateCartStock db cart = none := by
  intro cart
  induction cart with
  | nil => intro _; rfl
  | cons e rest ih =>
    intro h
    obtain ⟨pid, v, hfv, hle⟩ := h e (List.mem_cons_self _ _)
    obtain ⟨sku, qty⟩ := e
    rw [validateCartStock, hfv]
    dsimp only
    rw [if_neg (not_lt.2 hle)]
    exact ih (fun e he => h e (List.mem_cons_of_mem _ he))

theorem priceCart_nil {db : DB} {promo : Option Promo} :
    priceCart db promo [] = .ok ([], 0, 0) := rfl

theorem priceCart_cons {db : DB} {promo : Option Promo} {sku : String} {qty : ℤ}
    {rest : List (String × ℤ)} {pid : Nat} {v : Variant} {prod : Product}
    {items : List PurchasedItem} {sb dt : ℚ}
    (hfv : findVariant sku db = .ok (pid, v))
    (hpr : alookup db.products pid = some prod)
    (hrest : priceCart db promo rest = .ok (items, sb, dt)) :
    priceCart db promo ((sku, qty) :: rest) =
      .ok ({ sku := sku, name := prod.name, size := v.size, color := v.color,
             unitPrice := v.price, quantity := qty,
             subtotalBeforeDiscount := v.price * (qty : ℚ),
             discountApplied := lineDiscount promo sku (v.price * (qty : ℚ)),
             subtotalAfterDiscount :=
               v.price * (qty : ℚ) - lineDiscount promo sku (v.price * (qty : ℚ)) } :: items,
           v.price * (qty : ℚ) + sb,
           lineDiscount promo sku (v.price * (qty : ℚ)) + dt) := by
  rw [priceCart, hfv]
  dsimp only
  rw [hpr]
  dsimp only
  rw [hrest]

theorem priceCart_ok (db : DB) (promo : Option Promo) :
    ∀ cart : List (String × ℤ),
      (∀ e ∈ cart, ∃ pid v, findVariant e.1 db = .ok (pid, v)) →
      ∃ items sb dt, priceCart db promo cart = .ok (items, sb, dt) ∧
        items.map (fun i => (i.sku, i.quantity)) = cart := by
  intro cart
  induction cart with
  | nil => exact fun _ => ⟨[], 0, 0, rfl, rfl⟩
  | cons e rest ih =>
    intro h
    obtain ⟨pid, v, hfv⟩ := h e (List.mem_cons_self _ _)
    obtain ⟨idx, prod, hix, hpr, hv⟩ := findVariant_ok_elim hfv
    obtain ⟨items, sb, dt, hrest, hmap⟩ := ih (fun e he => h e (List.mem_cons_of_mem _ he))
    obtain ⟨sku, qty⟩ := e
    exact ⟨_, _, _, priceCart_cons hfv hpr hrest, by simp [hmap]⟩

/-- Effect of a fully successful commit pass on a well-formed state. -/
theorem commitStock_ok :
    ∀ (items : List PurchasedItem) (db : DB), db.Wf →
      (items.map PurchasedItem.sku).Nodup →
      (∀ i ∈ items, ∃ pid v, findVariant i.sku db = .ok (pid, v) ∧ i.quantity ≤ v.stock) →
      ∃ db', commitStock items db = (none, db') ∧
        db'.skuToProduct = db.skuToProduct ∧
        db'.promos = db.promos ∧
        db'.carts = db.carts ∧
        db'.transactionsByUser = db.transactionsByUser ∧
        db'.nextProductId = db.nextProductId ∧
        db'.nextTxId = db.nextTxId ∧
        db'.Wf ∧
        (∀ i ∈ items, ∀ pid v, findVariant i.sku db = .ok (pid, v) →
          findVariant i.sku db' = .ok (pid, { v with stock := v.stock - i.quantity })) ∧
        (∀ s, s ∉ items.map PurchasedItem.sku → findVariant s db' = findVariant s db) := by
  intro items
  induction items with
  | nil =>
    intro db hwf _ _
    exact ⟨db, rfl, rfl, rfl, rfl, rfl, rfl, rfl, hwf, by simp, fun _ _ => rfl⟩
  | cons i rest ih =>
    intro db hwf hnd hres
    rw [List.map_cons, List.nodup_cons] at hnd
    obtain ⟨pid, v, hfv, hle⟩ := hres i (List.mem_cons_self _ _)
    have hge : 0 ≤ v.stock + -i.quantity := by omega
    obtain ⟨db1, hstep, hix1, hpm1, hct1, htx1, hpi1, hti1, hfv1, hfvne1, hwf1⟩ :=
      adjustStock_ok hwf hfv hge
    have hresrest : ∀ j ∈ rest, ∃ pid v, findVariant j.sku db1 = .ok (pid, v) ∧
        j.quantity ≤ v.stock := by
      intro j hj
      obtain ⟨p, w, hw, hlw⟩ := hres j (List.mem_cons_of_mem _ hj)
      have hne : j.sku ≠ i.sku := by
        intro hc
        exact hnd.1 (hc ▸ List.mem_map.2 ⟨j, hj, rfl⟩)
      exact ⟨p, w, by rw [hfvne1 _ hne]; exact hw, hlw⟩
    obtain ⟨db', hstep', hix', hpm', hct', htx', hpi', hti', hwf', hdec', hkeep'⟩ :=
      ih db1 hwf1 hnd.2 hresrest
    have hrun : commitStock (i :: rest) db = (none, db') := by
      rw [commitStock, hstep]
      exact hstep'
    refine ⟨db', hrun, by rw [hix', hix1], by rw [hpm', hpm1], by rw [hct', hct1],
      by rw [htx', htx1], by rw [hpi', hpi1], by rw [hti', hti1], hwf', ?_, ?_⟩
    · intro j hj p w hw
      rcases List.mem_cons.1 hj with rfl | hj
      · have hpw := hfv.symm.trans hw
        simp only [Except.ok.injEq, Prod.mk.injEq] at hpw
        obtain ⟨rfl, rfl⟩ := hpw
        rw [hkeep' j.sku hnd.1, hfv1]
        simp [sub_eq_add_neg]
      · have hne : j.sku ≠ i.sku := by
          intro hc
          exact hnd.1 (hc ▸ List.mem_map.2 ⟨j, hj, rfl⟩)
        exact hdec' j hj p w (by rw [hfvne1 _ hne]; exact hw)
    · intro s hs
      rw [List.map_cons, List.mem_cons, not_or] at hs
      rw [hkeep' s hs.2, hfvne1 s hs.1]

theorem getCart_clearCart_self (user : String) (db : DB) :
    getCart user (clearCart user db) = [] := by
  simp [getCart, clearCart, alookup_ainsert_self]

/-- Full effect of a checkout whose cart is non-empty, whose promo code
resolves, and whose every entry is backed by sufficient stock. -/
theorem checkout_ok_effects {db : DB} {user : String} {promoCode : Option String}
    {op : Option Promo}
    (hwf : db.Wf)
    (hne : getCart user db ≠ [])
    (hpromo : resolvePromo promoCode db = .ok op)
    (hstock : ∀ e ∈ getCart user db, ∃ pid v,
      findVariant e.1 db = .ok (pid, v) ∧ e.2 ≤ v.stock) :
    ∃ tx db' items sb dt,
      checkout user promoCode db = (.ok tx, db') ∧
      priceCart db op (getCart user db) = .ok (items, sb, dt) ∧
      tx.items = items ∧
      tx.subtotalBeforeDiscount = sb ∧
      tx.discountTotal = dt ∧
      tx.totalPaid = sb - dt ∧
      tx.userId = user ∧
      tx.promoCode = op.map Promo.code ∧
      tx.items.map (fun i => (i.sku, i.quantity)) = getCart user db ∧
      getCart user db' = [] ∧
      listTransactions user db' = listTransactions user db ++ [tx] ∧
      (∀ e ∈ getCart user db, ∀ pid v, findVariant e.1 db = .ok (pid, v) →
        findVariant e.1 db' = .ok (pid, { v with stock := v.stock - e.2 })) ∧
      (∀ s, s ∉ (getCart user db).map Prod.fst →
        findVariant s db' = findVariant s db) := by
  obtain ⟨hpk, hid, hik, hiok, hsnd, hck, hcknd⟩ := hwf
  have hwf' : db.Wf := ⟨hpk, hid, hik, hiok, hsnd, hck, hcknd⟩
  have hcartnd : (akeys (getCart user db)).Nodup := by
    unfold getCart
    rcases hlk : alookup db.carts user with _ | c
    · simp [akeys]
    · exact hcknd _ (mem_of_alookup_eq_some hlk)
  have hemp : (getCart user db).isEmpty = false := by
    cases h : getCart user db
    · exact absurd h hne
    · rfl
  obtain ⟨items, sb, dt, hpc, hmap⟩ :=
    priceCart_ok db op (getCart user db)
      (fun e he => (hstock e he).imp (fun pid h => h.imp (fun v h => h.1)))
  have hskus : items.map PurchasedItem.sku = (getCart user db).map Prod.fst := by
    rw [← hmap, List.map_map]
    rfl
  have hindnd : (items.map PurchasedItem.sku).Nodup := by
    rw [hskus]
    exact hcartnd
  have hresitems : ∀ i ∈ items, ∃ pid v,
      findVariant i.sku db = .ok (pid, v) ∧ i.quantity ≤ v.stock := by
    intro i hi
    have : (i.sku, i.quantity) ∈ getCart user db := by
      rw [← hmap]
      exact List.mem_map.2 ⟨i, hi, rfl⟩
    exact hstock _ this
  obtain ⟨db2, hcommit, hix2, hpm2, hct2, htx2, hpi2, hti2, hwf2, hdec2, hkeep2⟩ :=
    commitStock_ok items db hwf' hindnd hresitems
  have hval : validateCartStock db (getCart user db) = none :=
    validateCartStock_none _ hstock
  set txv : Transaction :=
    { id := db2.nextTxId, userId := user, items := items,
      subtotalBeforeDiscount := sb, discountTotal := dt, totalPaid := sb - dt,
      promoCode := op.map Promo.code } with htxv
  set dbv : DB := clearCart user
    { db2 with
      nextTxId := db2.nextTxId + 1,
      transactionsByUser := ainsert db2.transactionsByUser user
        ((alookup db2.transactionsByUser user).getD [] ++ [txv]) } with hdbv
  refine ⟨txv, dbv, items, sb, dt, ?_, hpc, rfl, rfl, rfl, rfl, rfl, rfl, hmap, ?_, ?_, ?_, ?_⟩
  · unfold checkout
    rw [hemp]
    dsimp only [Bool.false_eq_true, if_false]
    rw [hpromo]
    dsimp only
    rw [hval]
    dsimp only
    rw [hpc]
    dsimp only
    rw [hcommit]
    rfl
  · exact getCart_clearCart_self _ _
  · show (alookup (clearCart user _).transactionsByUser user).getD [] =
      (alookup db.transactionsByUser user).getD [] ++ _
    unfold clearCart
    dsimp only
    rw [htx2, alookup_ainsert_self]
    rfl
  · intro e he pid v hfv
    have he' : e ∈ items.map (fun i => (i.sku, i.quantity)) := by
      rw [hmap]
      exact he
    obtain ⟨i, hi, hpair⟩ := List.mem_map.1 he'
    obtain ⟨sku, qty⟩ := e
    injection hpair with h1 h2
    subst h1
    subst h2
    exact hdec2 i hi pid v hfv
  · intro s hs
    have : s ∉ items.map PurchasedItem.sku := by
      rw [hskus]
      exact hs
    exact hkeep2 s this

theorem validateCartStock_some {db : DB} :
    ∀ cart : List (String × ℤ),
      (∃ en ∈ cart, ∃ pid v, findVariant en.1 db = .ok (pid, v) ∧ v.stock < en.2) →
      ∃ err, validateCartStock db cart = some err := by
  intro cart
  induction cart with
  | nil =>
    rintro ⟨en, hen, _⟩
    simp at hen
  | cons hd rest ih =>
    rintro ⟨en, hen, pid, v, hfv, hlt⟩
    obtain ⟨sku, qty⟩ := hd
    rw [validateCartStock]
    rcases hf : findVariant sku db with e | ⟨p, w⟩
    · exact ⟨e, rfl⟩
    · dsimp only
      by_cases hw : w.stock < qty
      · rw [if_pos hw]
        exact ⟨_, rfl⟩
      · rw [if_neg hw]
        apply ih
        rcases List.mem_cons.1 hen with rfl | hmem
        · rw [hf] at hfv
          simp only [Except.ok.injEq, Prod.mk.injEq] at hfv
          obtain ⟨rfl, rfl⟩ := hfv
          exact absurd hlt hw
        · exact ⟨en, hmem, pid, v, hfv, hlt⟩

/-! ## Concrete example state used by witnesses -/

/-- A small catalog-and-cart state: one product with two variants, one
SKU-restricted promo, one user cart holding two units of the first variant. -/
def exProduct : Product :=
  { id := 1, name := "Tas", description := none,
    variants :=
      [{ sku := "P1-S-BIRU", size := .s, color := .biru, price := 150, stock := 10 },
       { sku := "P1-M-COKLAT", size := .m, color := .coklat, price := 120, stock := 5 }] }

/-- See `exProduct`. -/
def dbExample : DB :=
  { products := [(1, exProduct)],
    skuToProduct := [("P1-S-BIRU", 1, 0), ("P1-M-COKLAT", 1, 1)],
    promos := [("TEN", { code := "TEN", discountPercent := 10,
                         appliesToSkus := ["P1-S-BIRU"] })],
    carts := [("u", [("P1-S-BIRU", 2)])],
    transactionsByUser := [],
    nextProductId := 2, nextTxId := 1 }

/-! ## Claim theorems -/

/-- C2 (amended): for every user whose cart is non-empty, whose every cart
entry `(sku, qty)` resolves to a variant with `stock ≥ qty`, and whose promo
code (if given) exists, checkout succeeds in a *well-formed* state — in
particular one where no product holds two variants sharing a SKU, the
situation produced by the C1 duplicate-SKU bug and refuted concretely by
`C2_counterexample` — and afterwards the cart is empty, each purchased SKU's
stock has dropped by exactly the purchased quantity, exactly one transaction
has been appended to that user's log, and
`totalPaid = subtotalBeforeDiscount - discountTotal`. -/
theorem C2_checkout_success (db : DB) (user : String) (promoCode : Option String)
    (hwf : db.Wf)
    (hne : getCart user db ≠ [])
    (hstock : ∀ e ∈ getCart user db, ∃ pid v,
      findVariant e.1 db = .ok (pid, v) ∧ e.2 ≤ v.stock)
    (hpromo : ∃ op, resolvePromo promoCode db = .ok op) :
    ∃ tx db', checkout user promoCode db = (.ok tx, db') ∧
      getCart user db' = [] ∧
      (∀ e ∈ getCart user db, ∀ pid v, findVariant e.1 db = .ok (pid, v) →
        ∃ v', findVariant e.1 db' = .ok (pid, v') ∧ v'.stock = v.stock - e.2) ∧
      listTransactions user db' = listTransactions user db ++ [tx] ∧
      tx.totalPaid = tx.subtotalBeforeDiscount - tx.discountTotal := by
  obtain ⟨op, hop⟩ := hpromo
  obtain ⟨tx, db', items, sb, dt, hco, hpc, hitems, hsb, hdt, htp, huser, hpcode,
    hmap, hcart0, htxs, hdec, hkeep⟩ := checkout_ok_effects hwf hne hop hstock
  refine ⟨tx, db', hco, hcart0, ?_, htxs, by rw [htp, hsb, hdt]⟩
  intro e he pid v hfv
  exact ⟨_, hdec e he pid v hfv, rfl⟩

/-- Witness for C2 at a concrete state: the checkout of two units of
`P1-S-BIRU` (price 150, stock 10) with the 10 % promo `TEN`. -/
theorem C2_checkout_success_witness :
    dbExample.Wf ∧ getCart "u" dbExample ≠ [] ∧
    (∃ tx db', checkout "u" (some "ten") dbExample = (.ok tx, db') ∧
      getCart "u" db' = [] ∧
      (∀ e ∈ getCart "u" dbExample, ∀ pid v, findVariant e.1 dbExample = .ok (pid, v) →
        ∃ v', findVariant e.1 db' = .ok (pid, v') ∧ v'.stock = v.stock - e.2) ∧
      listTransactions "u" db' = listTransactions "u" dbExample ++ [tx] ∧
      tx.totalPaid = tx.subtotalBeforeDiscount - tx.discountTotal) := by
  refine ⟨by decide, by decide, ?_⟩
  apply C2_checkout_success dbExample "u" (some "ten") (by decide) (by decide)
  · intro e he
    have he' : e = ("P1-S-BIRU", (2 : ℤ)) := by
      have : getCart "u" dbExample = [("P1-S-BIRU", (2 : ℤ))] := by decide
      rw [this] at he
      simpa using he
    subst he'
    exact ⟨1, { sku := "P1-S-BIRU", size := .s, color := .biru, price := 150, stock := 10 },
      by decide, by decide⟩
  · exact ⟨some { code := "TEN", discountPercent := 10, appliesToSkus := ["P1-S-BIRU"] },
      by decide⟩

/-- C3: checkout that fails on an empty cart, an unknown promo code, or an
entry whose quantity exceeds the current stock returns the corresponding
error and leaves the state exactly unchanged (no stock, cart, or transaction
mutation). -/
theorem C3_checkout_failure_no_mutation (db : DB) (user : String)
    (promoCode : Option String)
    (h : getCart user db = [] ∨
      (∃ e, resolvePromo promoCode db = .error e) ∨
      (∃ en ∈ getCart user db, ∃ pid v,
        findVariant en.1 db = .ok (pid, v) ∧ v.stock < en.2)) :
    ∃ err, checkout user promoCode db = (.error err, db) := by
  unfold checkout
  rcases h with h | ⟨e, he⟩ | ⟨en, hen, pid, v, hfv, hlt⟩
  · exact ⟨badRequestErr "Cart is empty", by rw [h]; rfl⟩
  · by_cases hc : getCart user db = []
    · exact ⟨badRequestErr "Cart is empty", by rw [hc]; rfl⟩
    · have hemp : (getCart user db).isEmpty = false := by
        cases hcc : getCart user db
        · exact absurd hcc hc
        · rfl
      rw [hemp]
      dsimp only [Bool.false_eq_true, if_false]
      rw [he]
      exact ⟨e, rfl⟩
  · have hc : getCart user db ≠ [] := by
      intro hc
      rw [hc] at hen
      simp at hen
    have hemp : (getCart user db).isEmpty = false := by
      cases hcc : getCart user db
      · exact absurd hcc hc
      · rfl
    rw [hemp]
    dsimp only [Bool.false_eq_true, if_false]
    rcases hp : resolvePromo promoCode db with e | op
    · exact ⟨e, rfl⟩
    · dsimp only
      obtain ⟨err, hval⟩ := validateCartStock_some (getCart user db)
        ⟨en, hen, pid, v, hfv, hlt⟩
      rw [hval]
      exact ⟨err, rfl⟩

/-- Witness for C3: asking for 11 units of `P1-S-BIRU` (stock 10) fails and
leaves the state untouched. -/
theorem C3_checkout_failure_no_mutation_witness :
    (∃ en ∈ getCart "u" (setCartQuantity "u" "P1-S-BIRU" 10 dbExample).2, True) ∧
    (∃ err, checkout "v" (some "nope") dbExample = (.error err, dbExample)) := by
  refine ⟨⟨("P1-S-BIRU", (10 : ℤ)), by decide, trivial⟩, ?_⟩
  apply C3_checkout_failure_no_mutation dbExample "v" (some "nope")
  left
  decide

/-- A product whose only variant has stock 0 (used by the C6 counterexample). -/
def zeroProduct : Product :=
  { id := 1, name := "Z", description := none,
    variants := [{ sku := "P1-L-PINK", size := .l, color := .pink,
                   price := 5, stock := 0 }] }

/-- A state holding only `zeroProduct`. -/
def dbZero : DB :=
  { products := [(1, zeroProduct)],
    skuToProduct := [("P1-L-PINK", 1, 0)],
    promos := [], carts := [], transactionsByUser := [],
    nextProductId := 2, nextTxId := 1 }

theorem getCart_ainsert_self (user : String) (cart : List (String × ℤ)) (db : DB) :
    getCart user { db with carts := ainsert db.carts user cart } = cart := by
  unfold getCart
  dsimp only
  rw [alookup_ainsert_self]
  rfl

/-- C6 as stated is false at stock `s = 0`: `set_cart_quantity` with
`quantity = stock = 0` succeeds but removes the entry instead of storing
quantity 0. -/
theorem C6_counterexample :
    findVariant "P1-L-PINK" dbZero =
      .ok (1, { sku := "P1-L-PINK", size := .l, color := .pink,
                price := 5, stock := 0 }) ∧
    (setCartQuantity "u" "P1-L-PINK" 0 dbZero).1 = .ok () ∧
    alookup (getCart "u" (setCartQuantity "u" "P1-L-PINK" 0 dbZero).2)
      "P1-L-PINK" = none := by
  decide

/-- C6 (amended): for a SKU resolving to a variant with stock `s`,
`set_cart_quantity(user, sku, s+1)` fails with a validation error leaving the
state unchanged, and `set_cart_quantity(user, sku, s)` succeeds; when
`s ≥ 1` it stores quantity `s` for that SKU, while when `s = 0` it leaves
the entry absent (a zero/negative quantity removes rather than stores). -/
theorem C6_set_quantity_at_stock (db : DB) (user sku : String) (s : ℤ)
    (pid : Nat) (v : Variant)
    (hfv : findVariant sku db = .ok (pid, v)) (hstock : v.stock = s) :
    setCartQuantity user sku (s + 1) db =
      (.error (badRequestErr "Quantity exceeds available stock"), db) ∧
    (1 ≤ s → ∃ db', setCartQuantity user sku s db = (.ok (), db') ∧
      alookup (getCart user db') sku = some s) ∧
    (s = 0 → ∃ db', setCartQuantity user sku s db = (.ok (), db') ∧
      alookup (getCart user db') sku = none) := by
  subst hstock
  refine ⟨?_, ?_, ?_⟩
  · unfold setCartQuantity
    rw [hfv]
    dsimp only
    rw [if_pos (by omega)]
  · intro hs
    refine ⟨{ db with carts :=
        (ainsert db.carts user (ainsert (getCart user db) sku v.stock)) }, ?_, ?_⟩
    · unfold setCartQuantity
      rw [hfv]
      dsimp only
      rw [if_neg (by omega), if_neg (by omega)]
    · rw [getCart_ainsert_self]
      exact alookup_ainsert_self _ _ _
  · intro hs
    refine ⟨{ db with carts :=
        (ainsert db.carts user (aerase (ainsert (getCart user db) sku v.stock) sku)) }, ?_, ?_⟩
    · unfold setCartQuantity
      rw [hfv]
      dsimp only
      rw [if_neg (by omega), if_pos (by omega)]
    · rw [getCart_ainsert_self]
      exact alookup_aerase_self _ _

/-- Witness for the amended C6 at `P1-M-COKLAT` (stock 5) in `dbExample`. -/
theorem C6_set_quantity_at_stock_witness :
    setCartQuantity "u" "P1-M-COKLAT" 6 dbExample =
      (.error (badRequestErr "Quantity exceeds available stock"), dbExample) ∧
    (1 ≤ (5 : ℤ) → ∃ db', setCartQuantity "u" "P1-M-COKLAT" 5 dbExample = (.ok (), db') ∧
      alookup (getCart "u" db') "P1-M-COKLAT" = some 5) ∧
    ((5 : ℤ) = 0 → ∃ db', setCartQuantity "u" "P1-M-COKLAT" 5 dbExample = (.ok (), db') ∧
      alookup (getCart "u" db') "P1-M-COKLAT" = none) :=
  C6_set_quantity_at_stock dbExample "u" "P1-M-COKLAT" 5 1
    { sku := "P1-M-COKLAT", size := .m, color := .coklat, price := 120, stock := 5 }
    (by decide) rfl

/-- C5: when `update_product` with a replacement variant list fails on a SKU
collision, the product's old SKUs have already been removed from the index:
after the conflict error, `find_variant` on each old SKU reports 404 even
though the product still lists its old variants, and carts are untouched. -/
theorem C5_update_conflict_strips_index (db : DB) (pid : Nat) (data : ProductUpdate)
    (prod : Product) (vcs : List VariantCreate) (err : HTTPError)
    (hlk : alookup db.products pid = some prod)
    (hvar : data.variants = some vcs)
    (hfail : buildNewVariants pid (eraseSkus db.skuToProduct prod.variants) vcs =
      .error err) :
    ∃ db', updateProduct pid data db = (.error err, db') ∧
      (∀ v ∈ prod.variants, findVariant v.sku db' =
        .error (notFoundErr "SKU not found")) ∧
      (∃ prod', alookup db'.products pid = some prod' ∧
        prod'.variants = prod.variants) ∧
      db'.carts = db.carts := by
  refine ⟨{ db with
      products := ainsert db.products pid (applyNameDesc data prod),
      skuToProduct := eraseSkus db.skuToProduct prod.variants }, ?_, ?_, ?_, rfl⟩
  · unfold updateProduct
    rw [hlk]
    dsimp only
    unfold updateProductRest
    rw [hvar]
    dsimp only
    unfold updateProductVariants
    dsimp only [applyNameDesc]
    rw [hfail]
  · intro v hv
    apply findVariant_none
    dsimp only
    rw [eraseSkus_alookup]
    rw [if_pos (List.mem_map.2 ⟨v, hv, rfl⟩)]
  · exact ⟨applyNameDesc data prod, by dsimp only; exact alookup_ainsert_self _ _ _, rfl⟩

/-- A state in which replacing product 1's variants by `(s, biru)` collides
with an index entry `P1-S-BIRU` owned by another product id (witness for C5;
the collision state is set up directly). -/
def conflictProductA : Product :=
  { id := 1, name := "A", description := none,
    variants := [{ sku := "P1-M-COKLAT", size := .m, color := .coklat,
                   price := 7, stock := 3 }] }

/-- See `dbConflict`. -/
def conflictProductB : Product :=
  { id := 2, name := "B", description := none,
    variants := [{ sku := "P1-S-BIRU", size := .s, color := .biru,
                   price := 9, stock := 4 }] }

/-- See the docstring above `conflictProductA`. -/
def dbConflict : DB :=
  { products := [(1, conflictProductA), (2, conflictProductB)],
    skuToProduct := [("P1-M-COKLAT", 1, 0), ("P1-S-BIRU", 2, 0)],
    promos := [], carts := [], transactionsByUser := [],
    nextProductId := 3, nextTxId := 1 }

/-- The update payload that triggers the C5 collision. -/
def conflictUpdate : ProductUpdate :=
  { name := none, description := none,
    variants := some [{ size := .s, color := .biru, price := 1, stock := 1 }] }

/-- Witness for C5: the conflicting update on `dbConflict` fails with the
duplicate-SKU error, yet `P1-M-COKLAT` no longer resolves while product 1
still lists it. -/
theorem C5_update_conflict_strips_index_witness :
    ∃ db', updateProduct 1 conflictUpdate dbConflict =
        (.error (badRequestErr "Duplicate SKU P1-S-BIRU"), db') ∧
      (∀ v ∈ conflictProductA.variants,
        findVariant v.sku db' = .error (notFoundErr "SKU not found")) ∧
      (∃ prod', alookup db'.products 1 = some prod' ∧
        prod'.variants = conflictProductA.variants) ∧
      db'.carts = dbConflict.carts := by
  apply C5_update_conflict_strips_index dbConflict 1 conflictUpdate
    conflictProductA
    [{ size := .s, color := .biru, price := 1, stock := 1 }]
    (badRequestErr "Duplicate SKU P1-S-BIRU")
    (by decide) rfl (by decide)

/-! ## Lemmas for product deletion and stale carts -/

theorem alookup_map_snd {ν μ : Type} (f : ν → μ) :
    ∀ (l : List (String × ν)) (k : String),
      alookup (l.map (fun c => (c.1, f c.2))) k = (alookup l k).map f := by
  intro l
  induction l with
  | nil => intro k; rfl
  | cons e rest ih =>
    intro k
    by_cases h : e.1 = k
    · simp [alookup, h]
    · simp [alookup, h, ih]

theorem alookup_filter_key {ν : Type} (q : String → Bool) :
    ∀ (l : List (String × ν)) (k : String),
      alookup (l.filter (fun e => q e.1)) k =
        if q k then alookup l k else none := by
  intro l
  induction l with
  | nil => intro k; simp [alookup]
  | cons e rest ih =>
    intro k
    rw [List.filter_cons]
    by_cases hq : q e.1
    · rw [if_pos (by simpa using hq)]
      by_cases hk : e.1 = k
      · subst hk
        simp [alookup, hq]
      · rw [alookup, if_neg hk, ih]
        by_cases hqk : q k <;> simp [hqk, alookup, hk]
    · rw [if_neg (by simpa using hq), ih]
      by_cases hk : e.1 = k
      · subst hk
        simp [alookup, hq]
      · by_cases hqk : q k <;> simp [hqk, alookup, hk]

theorem mem_aerase_key {κ ν : Type} [DecidableEq κ]
    {l : List (κ × ν)} {k : κ} {e : κ × ν} (h : e ∈ aerase l k) :
    e ∈ l ∧ e.1 ≠ k := by
  refine ⟨mem_aerase h, ?_⟩
  induction l with
  | nil => simpa [aerase] using h
  | cons f rest ih =>
    rw [aerase] at h
    by_cases hf : f.1 = k
    · simp only [hf, if_pos] at h
      exact ih h
    · simp only [hf, if_neg, ite_false, List.mem_cons] at h
      rcases h with rfl | h
      · exact hf
      · exact ih h

theorem mem_eraseSkus_key (vs : List Variant) :
    ∀ (ix : List (String × Nat × Nat)) (e : String × Nat × Nat),
      e ∈ eraseSkus ix vs → e ∈ ix ∧ e.1 ∉ vs.map Variant.sku := by
  induction vs with
  | nil =>
    intro ix e h
    exact ⟨h, by simp⟩
  | cons v rest ih =>
    intro ix e h
    have hstep : eraseSkus ix (v :: rest) = eraseSkus (aerase ix v.sku) rest := rfl
    rw [hstep] at h
    obtain ⟨hmem, hnot⟩ := ih _ _ h
    obtain ⟨hmem', hne⟩ := mem_aerase_key hmem
    refine ⟨hmem', ?_⟩
    simp only [List.map_cons, List.mem_cons, not_or]
    exact ⟨hne, hnot⟩

theorem mem_registerSkus (pid : Nat) (vs : List Variant) :
    ∀ (start : Nat) (ix : List (String × Nat × Nat)) (e : String × Nat × Nat),
      e ∈ registerSkus pid start ix vs →
      e ∈ ix ∨ ∃ j, ∃ hj : j < vs.length, e = ((vs.get ⟨j, hj⟩).sku, pid, start + j) := by
  induction vs with
  | nil =>
    intro start ix e h
    exact Or.inl h
  | cons v rest ih =>
    intro start ix e h
    have hstep : registerSkus pid start ix (v :: rest) =
        registerSkus pid (start + 1) (ainsert ix v.sku (pid, start)) rest := rfl
    rw [hstep] at h
    rcases ih (start + 1) _ e h with hm | ⟨j, hj, he⟩
    · rcases mem_ainsert hm with rfl | hm
      · right
        exact ⟨0, by simp, by simp⟩
      · exact Or.inl hm
    · right
      refine ⟨j + 1, by simpa using Nat.succ_lt_succ hj, ?_⟩
      rw [he]
      simp only [List.get_cons_succ]
      congr 2
      omega

/-- In a state with a valid index, `find_variant` returns a hit or 404 —
never an uncaught `KeyError`/`IndexError`. -/
theorem findVariant_ok_or_404 {db : DB} (hiok : indexOk db) (sku : String) :
    (∃ pid v, findVariant sku db = .ok (pid, v)) ∨
      findVariant sku db = .error (notFoundErr "SKU not found") := by
  rcases hix : alookup db.skuToProduct sku with _ | ⟨pid, idx⟩
  · exact Or.inr (findVariant_none hix)
  · obtain ⟨prod, v, hpr, hv, hsku⟩ := (indexEntryValidB_iff db sku pid idx).1
      (hiok _ (mem_of_alookup_eq_some hix))
    exact Or.inl ⟨pid, v, findVariant_of_index db hix hpr hv⟩

theorem cartViewItems_ok_of {db : DB} :
    ∀ cart : List (String × ℤ),
      (∀ e ∈ cart, ∃ pid v, findVariant e.1 db = .ok (pid, v)) →
      ∃ res, cartViewItems db cart = .ok res := by
  intro cart
  induction cart with
  | nil => intro _; exact ⟨([], 0), rfl⟩
  | cons e rest ih =>
    intro h
    obtain ⟨pid, v, hfv⟩ := h e (List.mem_cons_self _ _)
    obtain ⟨idx, prod, hix, hpr, hv⟩ := findVariant_ok_elim hfv
    obtain ⟨res, hres⟩ := ih (fun e he => h e (List.mem_cons_of_mem _ he))
    obtain ⟨items, subt⟩ := res
    obtain ⟨sku, qty⟩ := e
    refine ⟨({ sku := sku, name := prod.name, size := v.size, color := v.color,
               unitPrice := v.price, quantity := qty,
               lineSubtotal := v.price * (qty : ℚ) } :: items,
             v.price * (qty : ℚ) + subt), ?_⟩
    rw [cartViewItems, hfv]
    dsimp only
    rw [hpr]
    dsimp only
    rw [hres]

theorem cartViewItems_404 {db : DB} :
    ∀ cart : List (String × ℤ),
      (∀ e ∈ cart, (∃ pid v, findVariant e.1 db = .ok (pid, v)) ∨
        findVariant e.1 db = .error (notFoundErr "SKU not found")) →
      (∃ en ∈ cart, findVariant en.1 db = .error (notFoundErr "SKU not found")) →
      cartViewItems db cart = .error (notFoundErr "SKU not found") := by
  intro cart
  induction cart with
  | nil =>
    rintro _ ⟨en, hen, _⟩
    simp at hen
  | cons e rest ih =>
    rintro hall ⟨en, hen, herr⟩
    obtain ⟨sku, qty⟩ := e
    rcases hall _ (List.mem_cons_self _ _) with ⟨pid, v, hfv⟩ | hfv
    · obtain ⟨idx, prod, hix, hpr, hv⟩ := findVariant_ok_elim hfv
      rw [cartViewItems, hfv]
      dsimp only
      rw [hpr]
      dsimp only
      rw [ih (fun x hx => hall x (List.mem_cons_of_mem _ hx)) ?_]
      rcases List.mem_cons.1 hen with rfl | hmem
      · rw [hfv] at herr
        exact absurd herr (by simp)
      · exact ⟨en, hmem, herr⟩
    · rw [cartViewItems, hfv]

theorem validateCartStock_some_of_error (db : DB) :
    ∀ cart : List (String × ℤ),
      (∃ en ∈ cart, ∃ e, findVariant en.1 db = .error e) →
      ∃ err, validateCartStock db cart = some err := by
  intro cart
  induction cart with
  | nil =>
    rintro ⟨en, hen, _⟩
    simp at hen
  | cons hd rest ih =>
    rintro ⟨en, hen, e, herr⟩
    obtain ⟨sku, qty⟩ := hd
    rw [validateCartStock]
    rcases hf : findVariant sku db with f | ⟨p, w⟩
    · exact ⟨f, rfl⟩
    · dsimp only
      by_cases hw : w.stock < qty
      · rw [if_pos hw]
        exact ⟨_, rfl⟩
      · rw [if_neg hw]
        apply ih
        rcases List.mem_cons.1 hen with rfl | hmem
        · rw [hf] at herr
          exact absurd herr (by simp)
        · exact ⟨en, hmem, e, herr⟩

/-- C7: after a successful `delete_product`, no user's cart holds any SKU of
the deleted product, every surviving cart entry still resolves, and every
user's cart view succeeds. -/
theorem C7_delete_product_sweeps_carts (db : DB) (pid : Nat) (prod : Product)
    (hwf : db.Wf) (hlk : alookup db.products pid = some prod) :
    ∃ db', deleteProduct pid db = (.ok (), db') ∧
      (∀ user : String, ∀ v ∈ prod.variants, alookup (getCart user db') v.sku = none) ∧
      (∀ user : String, ∀ e ∈ getCart user db', ∃ p w, findVariant e.1 db' = .ok (p, w)) ∧
      (∀ user : String, ∃ res, cartView user db' = .ok res) := by
  obtain ⟨hpk, hid, hik, hiok, hsnd, hck, hcknd⟩ := hwf
  set dbd : DB := { db with
      products := aerase db.products pid,
      skuToProduct := eraseSkus db.skuToProduct prod.variants,
      carts := db.carts.map (fun c => (c.1, c.2.filter (fun e =>
        (alookup (eraseSkus db.skuToProduct prod.variants) e.1).isSome))) } with hdbd
  have hcartd : ∀ user : String, getCart user dbd =
      ((alookup db.carts user).map (fun items => items.filter (fun e =>
        (alookup (eraseSkus db.skuToProduct prod.variants) e.1).isSome))).getD [] := by
    intro user
    show ((alookup (db.carts.map (fun c => (c.1, c.2.filter (fun e =>
      (alookup (eraseSkus db.skuToProduct prod.variants) e.1).isSome)))) user).getD [])
      = _
    rw [alookup_map_snd]
  have hres : ∀ user : String, ∀ e ∈ getCart user dbd,
      ∃ p w, findVariant e.1 dbd = .ok (p, w) := by
    intro user e he
    rw [hcartd user] at he
    rcases hlc : alookup db.carts user with _ | c
    · rw [hlc] at he
      simp at he
    · rw [hlc] at he
      replace he : e ∈ c.filter (fun e =>
        (alookup (eraseSkus db.skuToProduct prod.variants) e.1).isSome) := he
      obtain ⟨hmem, hpred⟩ := List.mem_filter.1 he
      obtain ⟨pi, hpi⟩ := Option.isSome_iff_exists.1 hpred
      obtain ⟨p', i'⟩ := pi
      have hmemix := mem_of_alookup_eq_some hpi
      obtain ⟨hmemold, hnotold⟩ := mem_eraseSkus_key prod.variants _ _ hmemix
      obtain ⟨prodq, w, hprq, hwv, hwsku⟩ :=
        (indexEntryValidB_iff db e.1 p' i').1 (hiok _ hmemold)
      have hpne : p' ≠ pid := by
        intro hc
        subst hc
        rw [hlk] at hprq
        cases hprq
        exact hnotold (hwsku ▸ List.mem_map.2 ⟨w, List.getElem?_mem hwv, rfl⟩)
      refine ⟨p', w, findVariant_of_index dbd hpi ?_ hwv⟩
      show alookup (aerase db.products pid) p' = some prodq
      rw [alookup_aerase_ne _ _ _ hpne]
      exact hprq
  refine ⟨dbd, ?_, ?_, hres, ?_⟩
  · unfold deleteProduct
    rw [hlk]
  · intro user v hv
    rw [hcartd user]
    rcases hlc : alookup db.carts user with _ | c
    · rfl
    · show alookup (c.filter (fun e =>
        (alookup (eraseSkus db.skuToProduct prod.variants) e.1).isSome)) v.sku = none
      rw [alookup_filter_key (fun k =>
        (alookup (eraseSkus db.skuToProduct prod.variants) k).isSome) c v.sku]
      rw [eraseSkus_alookup, if_pos (List.mem_map.2 ⟨v, hv, rfl⟩)]
      simp
  · intro user
    exact cartViewItems_ok_of _ (hres user)

/-- Witness for C7: deleting product 1 from `dbExample` (user `u` holds one
of its SKUs) sweeps the cart and the view still succeeds. -/
theorem C7_delete_product_sweeps_carts_witness :
    ∃ db', deleteProduct 1 dbExample = (.ok (), db') ∧
      (∀ user : String, ∀ v ∈ exProduct.variants,
        alookup (getCart user db') v.sku = none) ∧
      (∀ user : String, ∀ e ∈ getCart user db', ∃ p w, findVariant e.1 db' = .ok (p, w)) ∧
      (∀ user : String, ∃ res, cartView user db' = .ok res) :=
  C7_delete_product_sweeps_carts dbExample 1 exProduct (by decide) (by decide)

/-- Success shape of an `update_product` call that replaces the variant
list. -/
theorem updateProduct_ok_elim {db : DB} {pid : Nat} {data : ProductUpdate}
    {prod p' : Product} {vcs : List VariantCreate} {db' : DB}
    (hlk : alookup db.products pid = some prod)
    (hvar : data.variants = some vcs)
    (hok : updateProduct pid data db = (.ok p', db')) :
    ∃ newVs, buildNewVariants pid (eraseSkus db.skuToProduct prod.variants) vcs =
        .ok newVs ∧
      p' = { applyNameDesc data prod with variants := newVs } ∧
      db' = { db with
        products := ainsert (ainsert db.products pid (applyNameDesc data prod)) pid
          { applyNameDesc data prod with variants := newVs },
        skuToProduct := registerSkus pid 0
          (eraseSkus db.skuToProduct prod.variants) newVs } := by
  unfold updateProduct at hok
  rw [hlk] at hok
  dsimp only at hok
  unfold updateProductRest at hok
  rw [hvar] at hok
  dsimp only at hok
  unfold updateProductVariants at hok
  dsimp only [applyNameDesc] at hok
  rcases hb : buildNewVariants pid (eraseSkus db.skuToProduct prod.variants) vcs
    with e | newVs
  · rw [hb] at hok
    exact absurd hok (by simp)
  · rw [hb] at hok
    dsimp only at hok
    simp only [Prod.mk.injEq, Except.ok.injEq] at hok
    exact ⟨newVs, rfl, hok.1.symm, hok.2.symm⟩

/-- C9: replacing a product's variants removes the old SKUs from the index
but not from carts; a cart that still holds a replaced-away SKU keeps its
entry, the SKU no longer resolves, the cart view fails with the 404
`find_variant` error rather than skipping the stale entry, and checkout
fails leaving the state unchanged. -/
theorem C9_update_leaves_stale_cart (db : DB) (pid : Nat) (data : ProductUpdate)
    (prod : Product) (vcs : List VariantCreate) (user sku : String) (qty : ℤ)
    (p' : Product) (db' : DB)
    (hwf : db.Wf)
    (hlk : alookup db.products pid = some prod)
    (hvar : data.variants = some vcs)
    (hok : updateProduct pid data db = (.ok p', db'))
    (hold : sku ∈ prod.variants.map Variant.sku)
    (hstale : sku ∉ p'.variants.map Variant.sku)
    (hcart : alookup (getCart user db) sku = some qty) :
    db'.carts = db.carts ∧
    alookup (getCart user db') sku = some qty ∧
    findVariant sku db' = .error (notFoundErr "SKU not found") ∧
    cartView user db' = .error (notFoundErr "SKU not found") ∧
    (∃ e, checkout user none db' = (.error e, db')) := by
  obtain ⟨hpk, hid, hik, hiok, hsnd, hck, hcknd⟩ := hwf
  obtain ⟨newVs, hbuild, hp', hdb'⟩ := updateProduct_ok_elim hlk hvar hok
  have hnewskus : sku ∉ newVs.map Variant.sku := by
    rw [hp'] at hstale
    exact hstale
  have hfcarts : db'.carts = db.carts := by rw [hdb']
  have hfix : db'.skuToProduct =
      registerSkus pid 0 (eraseSkus db.skuToProduct prod.variants) newVs := by
    rw [hdb']
  have hfprod : db'.products =
      ainsert (ainsert db.products pid (applyNameDesc data prod)) pid
        { applyNameDesc data prod with variants := newVs } := by
    rw [hdb']
  have hgc : getCart user db' = getCart user db := by
    unfold getCart
    rw [hfcarts]
  have hixlk : alookup db'.skuToProduct sku = none := by
    rw [hfix]
    rcases registerSkus_lookup pid newVs 0
        (eraseSkus db.skuToProduct prod.variants) sku with ⟨hl, _⟩ | ⟨j, hj, hjsku, _⟩
    · rw [hl, eraseSkus_alookup, if_pos hold]
    · exact absurd (List.mem_map.2 ⟨_, List.get_mem newVs _ _, hjsku⟩) hnewskus
  have hfv404 : findVariant sku db' = .error (notFoundErr "SKU not found") :=
    findVariant_none hixlk
  have hiokd : indexOk db' := by
    intro e he
    obtain ⟨esku, epid, eidx⟩ := e
    rw [indexEntryValidB_iff]
    rw [hfix] at he
    rcases mem_registerSkus pid newVs 0 _ _ he with hm | ⟨j, hj, hej⟩
    · obtain ⟨hmold, hnotold⟩ := mem_eraseSkus_key prod.variants _ _ hm
      obtain ⟨prodq, w, hprq, hwv, hwsku⟩ :=
        (indexEntryValidB_iff db esku epid eidx).1 (hiok _ hmold)
      have hpne : epid ≠ pid := by
        intro hc
        subst hc
        rw [hlk] at hprq
        cases hprq
        exact hnotold (hwsku ▸ List.mem_map.2 ⟨w, List.getElem?_mem hwv, rfl⟩)
      refine ⟨prodq, w, ?_, hwv, hwsku⟩
      rw [hfprod, alookup_ainsert_ne _ _ _ _ hpne, alookup_ainsert_ne _ _ _ _ hpne]
      exact hprq
    · injection hej with hej1 hej2
      injection hej2 with hej2 hej3
      subst hej1
      subst hej2
      subst hej3
      refine ⟨{ applyNameDesc data prod with variants := newVs },
        newVs.get ⟨j, hj⟩, ?_, ?_, rfl⟩
      · rw [hfprod, alookup_ainsert_self]
      · show newVs[0 + j]? = some (newVs.get ⟨j, hj⟩)
        simp [List.getElem?_eq_getElem hj]
  have hstalemem : (sku, qty) ∈ getCart user db' :=
    mem_of_alookup_eq_some (by rw [hgc]; exact hcart)
  refine ⟨hfcarts, by rw [hgc]; exact hcart, hfv404, ?_, ?_⟩
  · unfold cartView
    apply cartViewItems_404
    · intro e _
      exact findVariant_ok_or_404 hiokd e.1
    · exact ⟨(sku, qty), hstalemem, hfv404⟩
  · have hne : getCart user db' ≠ [] := by
      intro hc
      rw [hc] at hstalemem
      simp at hstalemem
    have hemp : (getCart user db').isEmpty = false := by
      cases hcc : getCart user db'
      · exact absurd hcc hne
      · rfl
    obtain ⟨err, hval⟩ := validateCartStock_some_of_error db' _
      ⟨(sku, qty), hstalemem, ⟨_, hfv404⟩⟩
    refine ⟨err, ?_⟩
    unfold checkout
    rw [hemp]
    dsimp only [Bool.false_eq_true, if_false]
    rw [hval]
    rfl

/-- The replacement payload of the C9 witness: product 1's variants become a
single `(l, pink)` variant, so the old SKUs are replaced away. -/
def c9upd : ProductUpdate :=
  { name := none, description := none,
    variants := some [{ size := .l, color := .pink, price := 9, stock := 4 }] }

/-- The product returned by the C9 witness update. -/
def c9p : Product :=
  { id := 1, name := "Tas", description := none,
    variants := [{ sku := "P1-L-PINK", size := .l, color := .pink,
                   price := 9, stock := 4 }] }

/-- The state after the C9 witness update. -/
def c9db : DB := (updateProduct 1 c9upd dbExample).2

/-- Witness for C9: after replacing product 1's variants, user `u`'s cart
still holds the stale `P1-S-BIRU`, and view/checkout fail. -/
theorem C9_update_leaves_stale_cart_witness :
    c9db.carts = dbExample.carts ∧
    alookup (getCart "u" c9db) "P1-S-BIRU" = some 2 ∧
    findVariant "P1-S-BIRU" c9db = .error (notFoundErr "SKU not found") ∧
    cartView "u" c9db = .error (notFoundErr "SKU not found") ∧
    (∃ e, checkout "u" none c9db = (.error e, c9db)) :=
  C9_update_leaves_stale_cart dbExample 1 c9upd exProduct
    [{ size := .l, color := .pink, price := 9, stock := 4 }] "u" "P1-S-BIRU" 2 c9p c9db
    (by decide) (by decide) rfl (by decide) (by decide) (by decide) (by decide)

/-! ## The reachable-state invariant -/

/-- Every stored variant has non-negative stock. -/
def stocksNonneg (db : DB) : Prop :=
  ∀ p ∈ db.products, ∀ v ∈ p.2.variants, 0 ≤ v.stock

/-- Every stored variant's SKU is `P<owning id>-<SIZE>-<COLOR>` derived from
its own size and color. -/
def skuFormatOk (db : DB) : Prop :=
  ∀ p ∈ db.products, ∀ v ∈ p.2.variants, v.sku = makeSku p.1 v.size v.color

/-- All SKUs in the catalog, in catalog order. -/
def catalogSkuList (db : DB) : List String :=
  db.products.flatMap (fun p => p.2.variants.map Variant.sku)

/-- The inductive invariant maintained by every operation. -/
def DBInv (db : DB) : Prop :=
  (∀ p ∈ db.products, p.2.id = p.1) ∧
  (akeys db.products).Pairwise (· < ·) ∧
  (∀ k ∈ akeys db.products, k < db.nextProductId) ∧
  skuFormatOk db ∧
  stocksNonneg db

instance (db : DB) : Decidable (DBInv db) := by
  unfold DBInv skuFormatOk stocksNonneg
  infer_instance

theorem buildNewVariants_mem {pid : Nat} {ix : List (String × Nat × Nat)} :
    ∀ {vcs : List VariantCreate} {vs : List Variant},
      buildNewVariants pid ix vcs = .ok vs →
      ∀ v ∈ vs, ∃ vc ∈ vcs,
        v = { sku := makeSku pid vc.size vc.color, size := vc.size,
              color := vc.color, price := vc.price, stock := vc.stock } := by
  intro vcs
  induction vcs with
  | nil =>
    intro vs h v hv
    rw [buildNewVariants] at h
    cases h
    simp at hv
  | cons vc rest ih =>
    intro vs h v hv
    rw [buildNewVariants] at h
    by_cases hdup : (alookup ix (makeSku pid vc.size vc.color)).isSome
    · rw [if_pos hdup] at h
      exact absurd h (by simp)
    · rw [if_neg hdup] at h
      rcases hrest : buildNewVariants pid ix rest with e | tl
      · rw [hrest] at h
        exact absurd h (by simp)
      · rw [hrest] at h
        dsimp only at h
        cases h
        rcases List.mem_cons.1 hv with rfl | hv
        · exact ⟨vc, List.mem_cons_self _ _, rfl⟩
        · obtain ⟨vc', hvc', he⟩ := ih hrest v hv
          exact ⟨vc', List.mem_cons_of_mem _ hvc', he⟩

theorem mem_replaceFirstStock {s : String} {st : ℤ} :
    ∀ {l : List Variant} {v' : Variant}, v' ∈ replaceFirstStock s st l →
      ∃ v ∈ l, v'.sku = v.sku ∧ v'.size = v.size ∧ v'.color = v.color ∧
        (v'.stock = st ∨ v'.stock = v.stock) := by
  intro l
  induction l with
  | nil =>
    intro v' h
    simp [replaceFirstStock] at h
  | cons w tl ih =>
    intro v' h
    rw [replaceFirstStock] at h
    by_cases hw : w.sku = s
    · rw [if_pos hw] at h
      rcases List.mem_cons.1 h with rfl | h
      · exact ⟨w, List.mem_cons_self _ _, rfl, rfl, rfl, Or.inl rfl⟩
      · exact ⟨v', List.mem_cons_of_mem _ h, rfl, rfl, rfl, Or.inr rfl⟩
    · rw [if_neg hw] at h
      rcases List.mem_cons.1 h with rfl | h
      · exact ⟨v', List.mem_cons_self _ _, rfl, rfl, rfl, Or.inr rfl⟩
      · obtain ⟨v, hv, he⟩ := ih h
        exact ⟨v, List.mem_cons_of_mem _ hv, he⟩

theorem aerase_sublist {κ ν : Type} [DecidableEq κ] (k : κ) :
    ∀ l : List (κ × ν), List.Sublist (aerase l k) l := by
  intro l
  induction l with
  | nil => simp [aerase]
  | cons e rest ih =>
    rw [aerase]
    by_cases he : e.1 = k
    · rw [if_pos he]
      exact List.Sublist.cons _ ih
    · rw [if_neg he]
      exact List.Sublist.cons₂ _ ih

/-- Replacing the value at an existing key, with id/format/stock side
conditions, preserves the invariant. -/
theorem Inv_ainsert {db : DB} {pid : Nat} {newProd : Product}
    (h : DBInv db) (hk : pid ∈ akeys db.products)
    (hid : newProd.id = pid)
    (hfmt : ∀ v ∈ newProd.variants, v.sku = makeSku pid v.size v.color)
    (hnn : ∀ v ∈ newProd.variants, 0 ≤ v.stock) :
    DBInv { db with products := ainsert db.products pid newProd } := by
  obtain ⟨hids, hpw, hbnd, hf, hs⟩ := h
  have hkeys : akeys (ainsert db.products pid newProd) = akeys db.products :=
    akeys_ainsert_of_mem _ hk
  refine ⟨?_, ?_, ?_, ?_, ?_⟩
  · intro p hp
    rcases mem_ainsert hp with rfl | hp
    · exact hid
    · exact hids _ hp
  · show (akeys (ainsert db.products pid newProd)).Pairwise (· < ·)
    rw [hkeys]
    exact hpw
  · show ∀ k ∈ akeys (ainsert db.products pid newProd), k < db.nextProductId
    rw [hkeys]
    exact hbnd
  · intro p hp
    rcases mem_ainsert hp with rfl | hp
    · exact hfmt
    · exact hf _ hp
  · intro p hp
    rcases mem_ainsert hp with rfl | hp
    · exact hnn
    · exact hs _ hp

/-- Operations that leave the catalog untouched and do not decrease the id
counter preserve the invariant. -/
theorem Inv_transfer {db db' : DB} (h : DBInv db) (hp : db'.products = db.products)
    (hn : db.nextProductId ≤ db'.nextProductId) : DBInv db' := by
  obtain ⟨hids, hpw, hbnd, hf, hs⟩ := h
  refine ⟨?_, ?_, ?_, ?_, ?_⟩
  · rw [hp]; exact hids
  · show (akeys db'.products).Pairwise (· < ·)
    rw [hp]; exact hpw
  · show ∀ k ∈ akeys db'.products, k < db'.nextProductId
    rw [hp]
    intro k hk
    exact lt_of_lt_of_le (hbnd k hk) hn
  · intro p hp'
    rw [hp] at hp'
    exact hf _ hp'
  · intro p hp'
    rw [hp] at hp'
    exact hs _ hp'

theorem addProduct_inv {db : DB} {data : ProductCreate}
    (h : DBInv db) (hv : data.valid) : DBInv (addProduct data db).2 := by
  obtain ⟨hids, hpw, hbnd, hf, hs⟩ := h
  unfold addProduct
  rcases hb : buildNewVariants db.nextProductId db.skuToProduct data.variants with e | vs
  · exact ⟨hids, hpw, fun k hk => Nat.lt_succ_of_lt (hbnd k hk), hf, hs⟩
  · dsimp only
    have hfresh : db.nextProductId ∉ akeys db.products :=
      fun hc => lt_irrefl _ (hbnd _ hc)
    have happ : ainsert db.products db.nextProductId
        (mkProduct db.nextProductId data vs) =
        db.products ++ [(db.nextProductId, mkProduct db.nextProductId data vs)] :=
      ainsert_of_not_mem _ hfresh
    have hnewfmt : ∀ v ∈ vs, v.sku = makeSku db.nextProductId v.size v.color := by
      intro v hvmem
      obtain ⟨vc, _, he⟩ := buildNewVariants_mem hb v hvmem
      rw [he]
    have hnewnn : ∀ v ∈ vs, 0 ≤ v.stock := by
      intro v hvmem
      obtain ⟨vc, hvc, he⟩ := buildNewVariants_mem hb v hvmem
      rw [he]
      exact (hv vc hvc).2
    refine ⟨?_, ?_, ?_, ?_, ?_⟩
    · intro p hp
      rw [happ] at hp
      rcases List.mem_append.1 hp with hp | hp
      · exact hids _ hp
      · simp only [List.mem_singleton] at hp
        rw [hp]
        rfl
    · show (akeys (ainsert db.products db.nextProductId _)).Pairwise (· < ·)
      rw [happ, akeys, List.map_append]
      rw [List.pairwise_append]
      refine ⟨hpw, by simp, ?_⟩
      intro a ha b hb
      simp only [List.map_singleton, List.mem_singleton] at hb
      rw [hb]
      exact hbnd a ha
    · show ∀ k ∈ akeys (ainsert db.products db.nextProductId _), k < db.nextProductId + 1
      rw [happ, akeys, List.map_append]
      intro k hk
      rcases List.mem_append.1 hk with hk | hk
      · exact Nat.lt_succ_of_lt (hbnd k hk)
      · simp only [List.map_singleton, List.mem_singleton] at hk
        rw [hk]
        exact Nat.lt_succ_self _
    · intro p hp
      rw [happ] at hp
      rcases List.mem_append.1 hp with hp | hp
      · exact hf _ hp
      · simp only [List.mem_singleton] at hp
        rw [hp]
        exact hnewfmt
    · intro p hp
      rw [happ] at hp
      rcases List.mem_append.1 hp with hp | hp
      · exact hs _ hp
      · simp only [List.mem_singleton] at hp
        rw [hp]
        exact hnewnn

theorem updateProduct_inv {db : DB} {pid : Nat} {data : ProductUpdate}
    (h : DBInv db) (hv : data.valid) : DBInv (updateProduct pid data db).2 := by
  unfold updateProduct
  rcases hlk : alookup db.products pid with _ | prod
  · exact h
  · have hmem := mem_of_alookup_eq_some hlk
    have hkmem : pid ∈ akeys db.products := alookup_mem_akeys hlk
    have hpid : prod.id = pid := h.1 _ hmem
    have hfmt1 : ∀ v ∈ (applyNameDesc data prod).variants,
        v.sku = makeSku pid v.size v.color := by
      intro v hvm
      exact h.2.2.2.1 _ hmem v hvm
    have hnn1 : ∀ v ∈ (applyNameDesc data prod).variants, 0 ≤ v.stock := by
      intro v hvm
      exact h.2.2.2.2 _ hmem v hvm
    have h1 : DBInv
        { db with products := ainsert db.products pid (applyNameDesc data prod) } :=
      Inv_ainsert h hkmem hpid hfmt1 hnn1
    unfold updateProductRest
    rcases hvar : data.variants with _ | vcs
    · exact h1
    · dsimp only
      unfold updateProductVariants
      dsimp only
      have h2 : DBInv
          { db with
            products := ainsert db.products pid (applyNameDesc data prod),
            skuToProduct :=
              eraseSkus db.skuToProduct (applyNameDesc data prod).variants } :=
        Inv_transfer h1 rfl le_rfl
      rcases hb : buildNewVariants pid
          (eraseSkus db.skuToProduct (applyNameDesc data prod).variants) vcs
        with e | newVs
      · exact h2
      · dsimp only
        have hknew : pid ∈ akeys (ainsert db.products pid (applyNameDesc data prod)) := by
          rw [akeys_ainsert_of_mem _ hkmem]
          exact hkmem
        have hfmtN : ∀ v ∈ newVs, v.sku = makeSku pid v.size v.color := by
          intro v hvm
          obtain ⟨vc, _, he⟩ := buildNewVariants_mem hb v hvm
          rw [he]
        have hnnN : ∀ v ∈ newVs, 0 ≤ v.stock := by
          intro v hvm
          obtain ⟨vc, hvc, he⟩ := buildNewVariants_mem hb v hvm
          rw [he]
          exact (hv vcs hvar vc hvc).2
        exact Inv_ainsert h2 hknew hpid hfmtN hnnN

theorem deleteProduct_inv {db : DB} {pid : Nat} :
    DBInv db → DBInv (deleteProduct pid db).2 := by
  intro h
  obtain ⟨hids, hpw, hbnd, hf, hs⟩ := h
  unfold deleteProduct
  rcases hlk : alookup db.products pid with _ | prod
  · exact ⟨hids, hpw, hbnd, hf, hs⟩
  · dsimp only
    have hsub : List.Sublist (akeys (aerase db.products pid)) (akeys db.products) :=
      List.Sublist.map _ (aerase_sublist pid db.products)
    refine ⟨?_, hpw.sublist hsub, ?_, ?_, ?_⟩
    · intro p hp
      exact hids _ (mem_aerase hp)
    · intro k hk
      exact hbnd k (hsub.mem hk)
    · intro p hp
      exact hf _ (mem_aerase hp)
    · intro p hp
      exact hs _ (mem_aerase hp)

theorem adjustStock_inv {db : DB} (sku : String) (delta : ℤ) :
    DBInv db → DBInv (adjustStock sku delta db).2 := by
  intro h
  unfold adjustStock
  rcases hfv : findVariant sku db with e | ⟨pid, v⟩
  · exact h
  · dsimp only
    by_cases hneg : v.stock + delta < 0
    · rw [if_pos hneg]
      exact h
    · rw [if_neg hneg]
      rcases hlk : alookup db.products pid with _ | prod
      · exact h
      · dsimp only
        have hmem := mem_of_alookup_eq_some hlk
        have hkmem : pid ∈ akeys db.products := alookup_mem_akeys hlk
        refine Inv_ainsert h hkmem ?_ ?_ ?_
        · show prod.id = pid
          exact h.1 _ hmem
        · intro v' hv'
          obtain ⟨w, hw, h1, h2, h3, _⟩ := mem_replaceFirstStock hv'
          rw [h1, h2, h3]
          exact h.2.2.2.1 _ hmem w hw
        · intro v' hv'
          obtain ⟨w, hw, _, _, _, h4⟩ := mem_replaceFirstStock hv'
          rcases h4 with h4 | h4
          · rw [h4]; omega
          · rw [h4]
            exact h.2.2.2.2 _ hmem w hw

theorem commitStock_inv :
    ∀ (items : List PurchasedItem) (db : DB),
      DBInv db → DBInv (commitStock items db).2 := by
  intro items
  induction items with
  | nil => intro db h; exact h
  | cons i rest ih =>
    intro db h
    rw [commitStock]
    rcases hadj : adjustStock i.sku (-i.quantity) db with ⟨r, db1⟩
    have h1 : DBInv db1 := by
      have := adjustStock_inv i.sku (-i.quantity) h
      rw [hadj] at this
      exact this
    rcases r with e | n
    · exact h1
    · exact ih db1 h1

theorem checkout_inv {db : DB} {user : String} {promoCode : Option String} :
    DBInv db → DBInv (checkout user promoCode db).2 := by
  intro h
  unfold checkout
  by_cases hemp : (getCart user db).isEmpty
  · rw [if_pos (by simpa using hemp)]
    exact h
  · rw [if_neg (by simpa using hemp)]
    rcases hp : resolvePromo promoCode db with e | op
    · exact h
    · dsimp only
      rcases hval : validateCartStock db (getCart user db) with _ | err
      · dsimp only
        rcases hpc : priceCart db op (getCart user db) with e | ⟨items, sb, dt⟩
        · exact h
        · dsimp only
          rcases hcs : commitStock items db with ⟨r, db1⟩
          have h1 : DBInv db1 := by
            have := commitStock_inv items db h
            rw [hcs] at this
            exact this
          rcases r with e | _
          · exact h1
          · exact Inv_transfer h1 rfl le_rfl
      · exact h

theorem setCartQuantity_inv {db : DB} {user sku : String} {qty : ℤ} :
    DBInv db → DBInv (setCartQuantity user sku qty db).2 := by
  intro h
  unfold setCartQuantity
  rcases hfv : findVariant sku db with e | ⟨pid, v⟩
  · exact h
  · dsimp only
    by_cases hlt : v.stock < qty
    · rw [if_pos hlt]
      exact h
    · rw [if_neg hlt]
      exact Inv_transfer h rfl le_rfl

theorem createPromo_inv {db : DB} {data : PromoCreate} :
    DBInv db → DBInv (createPromo data db).2 := by
  intro h
  unfold createPromo
  by_cases hc : (alookup db.promos (strUpper data.code)).isSome
  · rw [if_pos hc]
    exact h
  · rw [if_neg hc]
    exact Inv_transfer h rfl le_rfl

/-- Every reachable state satisfies the invariant. -/
theorem reachable_inv {db : DB} (h : Reachable db) : DBInv db := by
  induction h with
  | init =>
    exact addProduct_inv (by decide) (by decide)
  | step _ hstep ih =>
    cases hstep with
    | add data hv => exact addProduct_inv ih hv
    | update pid data hv => exact updateProduct_inv ih hv
    | del pid => exact deleteProduct_inv ih
    | adjust sku delta => exact adjustStock_inv sku delta ih
    | promo data hv => exact createPromo_inv ih
    | setQty user sku qty => exact setCartQuantity_inv ih
    | removeItem user sku => exact Inv_transfer ih rfl le_rfl
    | clear user => exact Inv_transfer ih rfl le_rfl
    | buy user promoCode => exact checkout_inv ih

/-- The duplicate-(size,color) create request exhibiting the C1 failure. -/
def dupCreate : ProductCreate :=
  { name := "D", description := none,
    variants := [{ size := .s, color := .biru, price := 1, stock := 1 },
                 { size := .s, color := .biru, price := 2, stock := 2 }] }

/-- The reachable state holding a product with two variants that share one
SKU. -/
def dupDB : DB := (addProduct dupCreate initDB).2

/-- C1 as stated is false: from the seeded initial state, one `create_product`
request repeating a (size, color) pair reaches a state whose catalog SKU list
has a duplicate (two variants of the same product share a SKU), because the
duplicate check consults only the index, never the SKUs derived earlier in
the same request. -/
theorem C1_counterexample :
    Reachable dupDB ∧ ¬ (catalogSkuList dupDB).Nodup :=
  ⟨Reachable.step Reachable.init (Step.add initDB dupCreate (by decide)),
   by decide⟩

/-- C1 (amended): in every reachable state every variant's SKU is
`P<owning product id>-<SIZE>-<COLOR>` (uppercased), and no two variants of
DISTINCT products share a SKU; uniqueness can only fail between two variants
of one product created by a single request repeating a (size, color) pair. -/
theorem C1_sku_format_and_cross_uniqueness (db : DB) (h : Reachable db) :
    skuFormatOk db ∧
    (∀ p ∈ db.products, ∀ q ∈ db.products, p.1 ≠ q.1 →
      ∀ v ∈ p.2.variants, ∀ w ∈ q.2.variants, v.sku ≠ w.sku) := by
  obtain ⟨hids, hpw, hbnd, hf, hs⟩ := reachable_inv h
  refine ⟨hf, ?_⟩
  intro p hp q hq hne v hv w hw hc
  rw [hf p hp v hv, hf q hq w hw] at hc
  exact hne (makeSku_inj hc).1

/-- Witness for the amended C1 at the seeded initial state. -/
theorem C1_sku_format_and_cross_uniqueness_witness :
    skuFormatOk initDB ∧
    (∀ p ∈ initDB.products, ∀ q ∈ initDB.products, p.1 ≠ q.1 →
      ∀ v ∈ p.2.variants, ∀ w ∈ q.2.variants, v.sku ≠ w.sku) :=
  C1_sku_format_and_cross_uniqueness initDB Reachable.init

/-- C8: in every reachable state every variant's stock is non-negative, and
`adjust_stock` rejects with a validation error (changing nothing) exactly the
deltas that would drive the resolved variant's stock negative, returning the
new stock otherwise. -/
theorem C8_stock_never_negative :
    (∀ db : DB, Reachable db → stocksNonneg db) ∧
    (∀ (db : DB) (sku : String) (delta : ℤ) (pid : Nat) (v : Variant),
      findVariant sku db = .ok (pid, v) →
      (v.stock + delta < 0 →
        adjustStock sku delta db = (.error (badRequestErr "Insufficient stock"), db)) ∧
      (0 ≤ v.stock + delta →
        ∃ db', adjustStock sku delta db = (.ok (v.stock + delta), db'))) := by
  constructor
  · intro db h
    exact (reachable_inv h).2.2.2.2
  · intro db sku delta pid v hfv
    constructor
    · intro hneg
      unfold adjustStock
      rw [hfv]
      dsimp only
      rw [if_pos hneg]
    · intro hge
      obtain ⟨idx, prod, hix, hpr, hv⟩ := findVariant_ok_elim hfv
      refine ⟨{ db with products :=
          (ainsert db.products pid
            { prod with variants :=
                replaceFirstStock sku (v.stock + delta) prod.variants }) }, ?_⟩
      unfold adjustStock
      rw [hfv]
      dsimp only
      rw [if_neg (by omega), hpr]

/-- Witness for C8: the seeded state has non-negative stocks, and adjusting
`P1-S-BIRU` (stock 10) by −11 fails while −3 succeeds returning 7. -/
theorem C8_stock_never_negative_witness :
    stocksNonneg initDB ∧
    adjustStock "P1-S-BIRU" (-11) dbExample =
      (.error (badRequestErr "Insufficient stock"), dbExample) ∧
    (∃ db', adjustStock "P1-S-BIRU" (-3) dbExample = (.ok 7, db')) := by
  refine ⟨C8_stock_never_negative.1 initDB Reachable.init, ?_, ?_⟩
  · exact (C8_stock_never_negative.2 dbExample "P1-S-BIRU" (-11) 1
      { sku := "P1-S-BIRU", size := .s, color := .biru, price := 150, stock := 10 }
      (by decide)).1 (by decide)
  · exact (C8_stock_never_negative.2 dbExample "P1-S-BIRU" (-3) 1
      { sku := "P1-S-BIRU", size := .s, color := .biru, price := 150, stock := 10 }
      (by decide)).2 (by decide)

/-- C10: a `create_product` request that fails on a duplicate SKU stores no
product and registers no SKU, but has already advanced the id counter; any
next successful create therefore receives an id one larger, and stored
product ids remain strictly increasing in insertion order though not
necessarily contiguous. -/
theorem C10_conflict_burns_id :
    (∀ (db : DB) (data : ProductCreate) (err : HTTPError),
      buildNewVariants db.nextProductId db.skuToProduct data.variants = .error err →
      addProduct data db = (.error err, { db with nextProductId := db.nextProductId + 1 })) ∧
    (∀ (db : DB) (data : ProductCreate) (p : Product) (db2 : DB),
      addProduct data db = (.ok p, db2) → p.id = db.nextProductId) ∧
    (∀ db : DB, Reachable db →
      (db.products.map (fun p => p.2.id)).Pairwise (· < ·)) := by
  refine ⟨?_, ?_, ?_⟩
  · intro db data err hfail
    unfold addProduct
    rw [hfail]
  · intro db data p db2 hok
    unfold addProduct at hok
    rcases hb : buildNewVariants db.nextProductId db.skuToProduct data.variants
      with e | vs
    · rw [hb] at hok
      exact absurd hok (by simp)
    · rw [hb] at hok
      dsimp only at hok
      simp only [Prod.mk.injEq, Except.ok.injEq] at hok
      rw [← hok.1]
      rfl
  · intro db h
    obtain ⟨hids, hpw, _, _, _⟩ := reachable_inv h
    have hmap : db.products.map (fun p => p.2.id) = akeys db.products := by
      unfold akeys
      exact List.map_congr_left hids
    rw [hmap]
    exact hpw

/-- A state whose index already holds the SKU that the next create request
would derive (id counter at 3), so the create fails (witness for C10). -/
def c10db : DB :=
  { dbConflict with skuToProduct := ("P3-S-BIRU", 2, 0) :: dbConflict.skuToProduct }

/-- The create payload colliding with `P3-S-BIRU` in `c10db`. -/
def c10data : ProductCreate :=
  { name := "N", description := none,
    variants := [{ size := .s, color := .biru, price := 2, stock := 2 }] }

/-- Witness for C10: the conflicting create fails leaving products and index
unchanged with the counter advanced; a subsequent successful create receives
the advanced id; ids are strictly increasing in the seeded state. -/
theorem C10_conflict_burns_id_witness :
    addProduct c10data c10db =
      (.error (badRequestErr "Duplicate SKU P3-S-BIRU"),
       { c10db with nextProductId := c10db.nextProductId + 1 }) ∧
    (∀ (p : Product) (db2 : DB),
      addProduct seedProductCreate { c10db with nextProductId := c10db.nextProductId + 1 }
        = (.ok p, db2) → p.id = 4) ∧
    (initDB.products.map (fun p => p.2.id)).Pairwise (· < ·) := by
  refine ⟨?_, ?_, ?_⟩
  · exact C10_conflict_burns_id.1 c10db c10data
      (badRequestErr "Duplicate SKU P3-S-BIRU") (by decide)
  · intro p db2 hok
    exact C10_conflict_burns_id.2.1 _ seedProductCreate p db2 hok
  · exact C10_conflict_burns_id.2.2 initDB Reachable.init

/-- C4: with a promo restricted to exactly `{A}` and a cart `{A: qa, B: qb}`,
checkout discounts only A's line, so
`totalPaid = priceA*qa*(1-pct/100) + priceB*qb`; and in general a line is
discounted exactly when `appliesToSkus` is empty or contains its SKU. -/
theorem C4_restricted_promo_discount (db : DB) (user code A B : String)
    (qa qb : ℤ) (pidA pidB : Nat) (vA vB : Variant) (promo : Promo) (pct : ℚ)
    (hwf : db.Wf)
    (hcart : getCart user db = [(A, qa), (B, qb)])
    (hAB : A ≠ B)
    (hfa : findVariant A db = .ok (pidA, vA)) (hqa : qa ≤ vA.stock)
    (hfb : findVariant B db = .ok (pidB, vB)) (hqb : qb ≤ vB.stock)
    (hpr : resolvePromo (some code) db = .ok (some promo))
    (happ : promo.appliesToSkus = [A])
    (hpct : promo.discountPercent = pct) :
    (∃ tx db', checkout user (some code) db = (.ok tx, db') ∧
      tx.totalPaid = vA.price * (qa : ℚ) * (1 - pct / 100) + vB.price * (qb : ℚ) ∧
      ∀ item ∈ tx.items, item.discountApplied =
        (if promoEligible promo item.sku then
          item.subtotalBeforeDiscount * (pct / 100) else 0)) ∧
    (∀ (p : Promo) (sku : String) (lb : ℚ), lineDiscount (some p) sku lb =
      if promoEligible p sku then lb * (p.discountPercent / 100) else 0) := by
  have hgen : ∀ (p : Promo) (sku : String) (lb : ℚ), lineDiscount (some p) sku lb =
      if promoEligible p sku then lb * (p.discountPercent / 100) else 0 :=
    fun p sku lb => rfl
  refine ⟨?_, hgen⟩
  have hstock : ∀ e ∈ getCart user db, ∃ pid v,
      findVariant e.1 db = .ok (pid, v) ∧ e.2 ≤ v.stock := by
    rw [hcart]
    intro e he
    rcases List.mem_cons.1 he with rfl | he
    · exact ⟨pidA, vA, hfa, hqa⟩
    · rcases List.mem_cons.1 he with rfl | he
      · exact ⟨pidB, vB, hfb, hqb⟩
      · simp at he
  have hne : getCart user db ≠ [] := by
    rw [hcart]
    simp
  obtain ⟨tx, db', items, sb, dt, hco, hpc, hitems, hsb, hdt, htp, _, _, _, _, _, _, _⟩ :=
    checkout_ok_effects hwf hne hpr hstock
  obtain ⟨idxA, prodA, hixA, hprA, hvA⟩ := findVariant_ok_elim hfa
  obtain ⟨idxB, prodB, hixB, hprB, hvB⟩ := findVariant_ok_elim hfb
  have heligA : promoEligible promo A = true := by
    rw [promoEligible, happ]
    simp
  have heligB : promoEligible promo B = false := by
    rw [promoEligible, happ]
    simp [Ne.symm hAB]
  have hdA : lineDiscount (some promo) A (vA.price * (qa : ℚ)) =
      vA.price * (qa : ℚ) * (pct / 100) := by
    rw [lineDiscount, heligA]
    simp [hpct]
  have hdB : lineDiscount (some promo) B (vB.price * (qb : ℚ)) = 0 := by
    rw [lineDiscount, heligB]
    simp
  have hpcc : priceCart db (some promo) (getCart user db) =
      .ok ([{ sku := A, name := prodA.name, size := vA.size, color := vA.color,
              unitPrice := vA.price, quantity := qa,
              subtotalBeforeDiscount := vA.price * (qa : ℚ),
              discountApplied := lineDiscount (some promo) A (vA.price * (qa : ℚ)),
              subtotalAfterDiscount := vA.price * (qa : ℚ) -
                lineDiscount (some promo) A (vA.price * (qa : ℚ)) },
            { sku := B, name := prodB.name, size := vB.size, color := vB.color,
              unitPrice := vB.price, quantity := qb,
              subtotalBeforeDiscount := vB.price * (qb : ℚ),
              discountApplied := lineDiscount (some promo) B (vB.price * (qb : ℚ)),
              subtotalAfterDiscount := vB.price * (qb : ℚ) -
                lineDiscount (some promo) B (vB.price * (qb : ℚ)) }],
           vA.price * (qa : ℚ) + (vB.price * (qb : ℚ) + 0),
           lineDiscount (some promo) A (vA.price * (qa : ℚ)) +
             (lineDiscount (some promo) B (vB.price * (qb : ℚ)) + 0)) := by
    rw [hcart]
    exact priceCart_cons hfa hprA (priceCart_cons hfb hprB priceCart_nil)
  rw [hpcc] at hpc
  simp only [Except.ok.injEq, Prod.mk.injEq] at hpc
  obtain ⟨hitems', hsb', hdt'⟩ := hpc
  refine ⟨tx, db', hco, ?_, ?_⟩
  · rw [htp, ← hsb', ← hdt', hdA, hdB]
    ring
  · intro item hitem
    rw [hitems, ← hitems'] at hitem
    rcases List.mem_cons.1 hitem with rfl | hitem
    · dsimp only
      rw [heligA, if_pos rfl]
      rw [hdA]
    · rcases List.mem_cons.1 hitem with rfl | hitem
      · dsimp only
        rw [heligB]
        simp [hdB]
      · simp at hitem

/-- The 10 % promo of `dbExample`, restricted to `P1-S-BIRU`. -/
def tenPromo : Promo :=
  { code := "TEN", discountPercent := 10, appliesToSkus := ["P1-S-BIRU"] }

/-- `dbExample` with B = `P1-M-COKLAT` (one unit) added to user `u`'s cart. -/
def c4db : DB :=
  { dbExample with carts := [("u", [("P1-S-BIRU", 2), ("P1-M-COKLAT", 1)])] }

/-- Witness for C4: promo `TEN` (10 %, restricted to `P1-S-BIRU`) on cart
`{P1-S-BIRU: 2, P1-M-COKLAT: 1}` yields `150*2*0.9 + 120 = 390`. -/
theorem C4_restricted_promo_discount_witness :
    (∃ tx db', checkout "u" (some "TEN") c4db = (.ok tx, db') ∧
      tx.totalPaid = 150 * ((2 : ℤ) : ℚ) * (1 - 10 / 100) + 120 * ((1 : ℤ) : ℚ) ∧
      ∀ item ∈ tx.items, item.discountApplied =
        (if promoEligible tenPromo item.sku then
          item.subtotalBeforeDiscount * ((10 : ℚ) / 100) else 0)) ∧
    (∀ (p : Promo) (sku : String) (lb : ℚ), lineDiscount (some p) sku lb =
      if promoEligible p sku then lb * (p.discountPercent / 100) else 0) :=
  C4_restricted_promo_discount c4db "u" "TEN" "P1-S-BIRU" "P1-M-COKLAT" 2 1 1 1
    { sku := "P1-S-BIRU", size := .s, color := .biru, price := 150, stock := 10 }
    { sku := "P1-M-COKLAT", size := .m, color := .coklat, price := 120, stock := 5 }
    tenPromo 10
    (by decide) (by decide) (by decide) (by decide) (by decide) (by decide)
    (by decide) (by decide) rfl rfl

/-- The reachable state refuting C2 as stated: the seeded state, then the
duplicate-(size,color) create (`dupDB`), then user `u` puts one unit of the
duplicated SKU `P2-S-BIRU` in their cart.  The index resolves that SKU to the
last same-SKU variant (stock 2), so the cart entry passes every check. -/
def c2failDB : DB := (setCartQuantity "u" "P2-S-BIRU" 1 dupDB).2

/-- C2 as stated is false on the code: in the reachable duplicate-SKU state
`c2failDB` every hypothesis of the claim holds (non-empty cart, the entry
resolves with stock 2 ≥ qty 1, no promo code), checkout succeeds, yet the
purchased SKU's stock does not decrease — it is still 2 afterwards, because
`adjust_stock` writes the deducted stock into the *first* variant whose SKU
matches while `find_variant` resolves the index entry of the *last*
registration. -/
theorem C2_counterexample :
    Reachable c2failDB ∧
    getCart "u" c2failDB = [("P2-S-BIRU", 1)] ∧
    stockOf c2failDB "P2-S-BIRU" = some 2 ∧
    (checkout "u" none c2failDB).1.isOk = true ∧
    getCart "u" (checkout "u" none c2failDB).2 = [] ∧
    stockOf (checkout "u" none c2failDB).2 "P2-S-BIRU" = some 2 := by
  refine ⟨?_, by decide, by decide, by decide, by decide, by decide⟩
  exact Reachable.step
    (Reachable.step Reachable.init (Step.add initDB dupCreate (by decide)))
    (Step.setQty dupDB "u" "P2-S-BIRU" 1)
